import Mathlib

/-!
Verification of the RayWebpageToCasestudy extraction microservice.

This file gives a shallow embedding of the repository's error model
(`src/utils/errors.js`), the fetch/retry layer (the two
`extractionService.js` variants: the plain-HTTP one and the
browser-capable one), the batch orchestration layer
(`orchestrationService.js`: `processSingleUrl`, `processBatch`,
`retryFailedStories` together with the storage collaborator's
`saveStory`/`updateBatch` semantics), and the parsing layer
(`parsingService.js`: `removeNoise`, `identifyMainContent`,
`deepCleanContent`, and the title cleanup of `extractMetadata`).
Theorems about these definitions settle the specification's claims.
-/

set_option maxRecDepth 10000

/-! ## Error model — src/utils/errors.js -/

/-- `ErrorTypes` from src/utils/errors.js. -/
inductive ErrType where
  | INVALID_URL
  | EXTRACTION_FAILED
  | PARSE_ERROR
  | TIMEOUT
  | RATE_LIMITED
  | NOT_FOUND
  | STORAGE_ERROR
  | VALIDATION_ERROR
  | UNKNOWN
deriving DecidableEq, Repr

/-- `RetryableErrors = [TIMEOUT, RATE_LIMITED]`; an `ExtractionError`'s
`retryable` flag is membership in that list (errors.js line 37). -/
def retryableB : ErrType → Bool
  | .TIMEOUT => true
  | .RATE_LIMITED => true
  | _ => false

/-- `getBackoffDelay(attempt, baseDelay = 1000)` from errors.js:
`Math.pow(3, attempt - 1) * baseDelay`.  `attempt` is 1-indexed. -/
def getBackoffDelay (attempt baseDelay : Nat) : Nat :=
  3 ^ (attempt - 1) * baseDelay

/-! ## Fetch layer — the two `extractionService.js` variants

The per-attempt behaviour of the server is modelled as a function from the
1-based attempt number to a response: either an HTTP status (axios resolves
when `validateStatus: status < 500` holds, otherwise rejects with an error
carrying `response.status`) or a network-level error code.
-/

/-- What the server/network does on one attempt. -/
inductive SResp where
  | httpStatus (code : Nat) (html : String)
  | netErr (code : String)
deriving DecidableEq, Repr

/-- Outcome of one iteration of the `for (attempt ...)` loop body:
either the fetch succeeds, or an error is rethrown at once, or the error
is recorded in `lastError` and the loop continues (possibly after a
backoff sleep). -/
inductive AttemptStep where
  | succ (status : Nat)
  | throwNow (e : ErrType)
  | record (e : ErrType)
deriving DecidableEq, Repr

/-- The `catch` branch for an `ExtractionError` raised inside the `try`:
`if (!error.retryable || attempt === maxRetries) throw error;` — otherwise
the error is kept as `lastError` and control reaches the retry check. -/
def fromTryError (e : ErrType) (attempt maxRetries : Nat) : AttemptStep :=
  if !(retryableB e) || attempt = maxRetries then .throwNow e else .record e

/-- One attempt of `fetchUrl` in the plain-HTTP variant of
extractionService.js (the file whose in-`try` checks are ordered
`status >= 400` first, then `status === 429`): a resolved response with
status ≥ 400 throws `EXTRACTION_FAILED` before the 429 check is reached;
a rejection classifies by `error.code` / `error.response.status`
in the order of the source's `catch` chain. -/
def attemptSimple (r : SResp) (attempt maxRetries : Nat) : AttemptStep :=
  match r with
  | .httpStatus code _ =>
    if code < 500 then
      -- axios resolved; in-try checks, in source order
      if 400 ≤ code then fromTryError .EXTRACTION_FAILED attempt maxRetries
      else if code = 429 then fromTryError .RATE_LIMITED attempt maxRetries
      else .succ code
    else
      -- axios rejected with error.response.status = code
      if code = 429 then .record .RATE_LIMITED else .record .EXTRACTION_FAILED
  | .netErr c =>
    if c = "ECONNABORTED" || c = "ETIMEDOUT" then .record .TIMEOUT
    else if c = "ENOTFOUND" then .throwNow .INVALID_URL
    else .record .EXTRACTION_FAILED

/-- One attempt of `fetchUrl` in the browser-capable variant of
extractionService.js, whose in-`try` checks are ordered
`status === 429` first ("429 is also >= 400, so check it first"),
then `status >= 400`. -/
def attemptBrowser (r : SResp) (attempt maxRetries : Nat) : AttemptStep :=
  match r with
  | .httpStatus code _ =>
    if code < 500 then
      if code = 429 then fromTryError .RATE_LIMITED attempt maxRetries
      else if 400 ≤ code then fromTryError .EXTRACTION_FAILED attempt maxRetries
      else .succ code
    else
      if code = 429 then .record .RATE_LIMITED else .record .EXTRACTION_FAILED
  | .netErr c =>
    if c = "ECONNABORTED" || c = "ETIMEDOUT" then .record .TIMEOUT
    else if c = "ENOTFOUND" then .throwNow .INVALID_URL
    else .record .EXTRACTION_FAILED

/-- Observable events of a `fetchUrl` run: a failed attempt with its
normalized error, a backoff wait (`await sleep(getBackoffDelay(attempt))`),
or a successful attempt. -/
inductive FEv where
  | failAt (attempt : Nat) (e : ErrType)
  | wait (attempt ms : Nat)
  | succAt (attempt status : Nat)
deriving DecidableEq, Repr

/-- Final outcome of `fetchUrl`: a returned status or a thrown error. -/
inductive FOut where
  | ok (status : Nat)
  | errOut (e : ErrType)
deriving DecidableEq, Repr

/-- The `for (let attempt = 1; attempt <= maxRetries; attempt++)` loop of
`fetchUrl`, parametrised by the per-attempt classifier.  `rem` counts the
remaining iterations (`maxRetries + 1 - attempt`); when the loop ends
without returning, `throw lastError`.  A backoff sleep happens exactly
when `isRetryable(lastError) && attempt < maxRetries`. -/
def fetchLoop (att : SResp → Nat → Nat → AttemptStep) (server : Nat → SResp)
    (maxRetries : Nat) : Nat → Nat → ErrType → FOut × List FEv
  | 0, _, lastE => (.errOut lastE, [])
  | rem + 1, attempt, _ =>
    match att (server attempt) attempt maxRetries with
    | .succ st => (.ok st, [.succAt attempt st])
    | .throwNow e => (.errOut e, [.failAt attempt e])
    | .record e =>
      if retryableB e && decide (attempt < maxRetries) then
        ((fetchLoop att server maxRetries rem (attempt + 1) e).1,
          .failAt attempt e :: .wait attempt (getBackoffDelay attempt 1000) ::
            (fetchLoop att server maxRetries rem (attempt + 1) e).2)
      else
        ((fetchLoop att server maxRetries rem (attempt + 1) e).1,
          .failAt attempt e :: (fetchLoop att server maxRetries rem (attempt + 1) e).2)

/-- `fetchUrl` of the plain-HTTP extractionService variant: an invalid URL
throws `INVALID_URL` before any attempt; otherwise the attempt loop runs
with 1-based attempts up to `maxRetries`.  The initial `lastError` is
`undefined` in the source; it is only thrown when `maxRetries = 0`,
modelled as `UNKNOWN`. -/
def fetchUrlSimple (validUrl : Bool) (server : Nat → SResp) (maxRetries : Nat) :
    FOut × List FEv :=
  if validUrl then fetchLoop attemptSimple server maxRetries maxRetries 1 .UNKNOWN
  else (.errOut .INVALID_URL, [])

/-- `fetchUrl` of the browser-capable extractionService variant
(identical loop, 429 checked before the ≥ 400 check). -/
def fetchUrlBrowser (validUrl : Bool) (server : Nat → SResp) (maxRetries : Nat) :
    FOut × List FEv :=
  if validUrl then fetchLoop attemptBrowser server maxRetries maxRetries 1 .UNKNOWN
  else (.errOut .INVALID_URL, [])

/-- The server of the spec's end-to-end retry scenario: HTTP 429 on
attempts 1 and 2, HTTP 200 on attempt 3 and later. -/
def server429 : Nat → SResp :=
  fun n => if n ≤ 2 then .httpStatus 429 "" else .httpStatus 200 "<html></html>"

/-- Count the backoff waits in a fetch trace. -/
def countWaits (evs : List FEv) : Nat :=
  (evs.filter (fun e => match e with | .wait _ _ => true | _ => false)).length

/-! ## Batch orchestration — orchestrationService.js `processBatch`

`processBatch` partitions the URL list into slices of the configured
concurrency (`for (let i = 0; i < urlList.length; i += concurrency)` with
`urlList.slice(i, i + concurrency)`), awaits each slice with
`Promise.all`, appends its results to the running `results` array and
then recomputes and persists the progress counters.  Each item resolves
to a result whose `success` flag and `storyId` come from
`processSingleUrl`: a success response carries the story id, a failure
response carries `storyId: null` (even though the failed Story record
was persisted under a real id).
-/

/-- One resolved batch item, as `processBatch` sees it: the id under
which `processSingleUrl` persisted the Story, whether it succeeded, and
the `storyId` field of the returned response (`some sid` on success,
`none` on failure, mirroring `storyId: null` in the error response). -/
structure ItemRes where
  sid : Nat
  success : Bool
deriving DecidableEq, Repr

/-- The `storyId` field of the response `processBatch` receives for an
item: the persisted id on success, `null` on failure. -/
def respStoryId (r : ItemRes) : Option Nat :=
  if r.success then some r.sid else none

/-- The window decomposition of `processBatch`'s slice loop:
`slice(i, i + c)` for `i = 0, c, 2c, …`.  The source's loop does not
terminate for `c = 0`; that degenerate case is mapped to a single window. -/
def windowsGo (c : Nat) : Nat → List α → List (List α)
  | _, [] => []
  | 0, l => [l]
  | fuel + 1, x :: xs =>
    match c with
    | 0 => [x :: xs]
    | c' + 1 => ((x :: xs).take (c' + 1)) :: windowsGo c fuel (xs.drop c')

/-- The window decomposition, with enough steps for the whole list (each
window consumes at least one element, so `l.length` steps suffice). -/
def windows (c : Nat) (l : List α) : List (List α) := windowsGo c l.length l

/-- The `(processed, completed, failed, storyIds)` tuple persisted by
`storageService.updateBatch` after a window resolves. -/
structure Snapshot where
  processed : Nat
  completed : Nat
  failed : Nat
  stories : List Nat
deriving DecidableEq, Repr

/-- Recompute the progress counters from the cumulative `results` array,
exactly as `processBatch` does after each window:
`completed = results.filter(r => r.success).length`,
`failed = results.filter(r => !r.success).length`,
`processed = results.length`,
`stories = results.filter(r => r.storyId).map(r => r.storyId)`. -/
def snapAfter (results : List ItemRes) : Snapshot :=
  { processed := results.length
    completed := (results.filter (fun r => r.success)).length
    failed := (results.filter (fun r => !r.success)).length
    stories := (results.filter (fun r => (respStoryId r).isSome)).map (fun r => (respStoryId r).getD 0) }

/-- The sequence of persisted progress updates: one `Snapshot` per
window, computed on the results accumulated so far (`prev`). -/
def batchSnaps (prev : List ItemRes) : List (List ItemRes) → List Snapshot
  | [] => []
  | w :: ws => snapAfter (prev ++ w) :: batchSnaps (prev ++ w) ws

/-- All progress updates persisted during `processBatch` for concurrency
`c` over the given item outcomes. -/
def processBatchSnaps (c : Nat) (outcomes : List ItemRes) : List Snapshot :=
  batchSnaps [] (windows c outcomes)

/-- Number of items of a window list whose Story record was materialized
by `processSingleUrl`: every item, successful or failed, is persisted
(`saveStory` is called in both the success path and the catch path). -/
def materializedCount (results : List ItemRes) : Nat :=
  results.length

/-! ## Single-item pipeline — orchestrationService.js `processSingleUrl`

The pipeline's collaborators (fetcher, parser/AI agents, template
renderer, storage) are modelled as oracles giving each step's outcome.
A thrown JavaScript value is either a typed `ExtractionError` or an
untyped error; the `catch` handler of `processSingleUrl` normalizes the
latter to `UNKNOWN`.  The Gamma block and the fire-and-forget callback
have their own internal `catch`/non-awaited promise and cannot change
the story state or raise, so they are not modelled.
-/

/-- A thrown JavaScript value: a typed `ExtractionError` or anything else. -/
inductive JsErr where
  | typed (e : ErrType)
  | untyped (msg : String)
deriving DecidableEq, Repr

/-- The normalization in `processSingleUrl`'s catch:
`error instanceof ExtractionError ? error : new ExtractionError(ErrorTypes.UNKNOWN, ...)`. -/
def normalizeErr : JsErr → ErrType
  | .typed e => e
  | .untyped _ => .UNKNOWN

/-- The `Content` record assembled by the pipeline (shape shared by the
rule-based parser and the AI pipeline). -/
structure ContentObj where
  title : String
  textOnly : String
  htmlStructured : String
  wordCount : Nat
  estimatedReadTime : String
  metadata : String
  headings : List (Nat × String)
  quotes : List (String × Option String)
deriving DecidableEq, Repr

/-- The persisted `storyData` record of `processSingleUrl`. -/
structure StoryRec where
  storyId : String
  originalUrl : String
  status : String
  extractedAt : String
  content : Option ContentObj
  error : Option ErrType
deriving DecidableEq, Repr

/-- The structured response `processSingleUrl` returns.  A success
response carries the story id; the error response carries
`storyId: null`, the error kind, and the `retryable` flag. -/
structure PResp where
  success : Bool
  storyId : Option String
  error : Option ErrType
  retryable : Option Bool
deriving DecidableEq, Repr

/-- Result of a `processSingleUrl` call: a returned response, or an
exception escaping to the caller. -/
inductive PResult where
  | resp (r : PResp)
  | raised (e : JsErr)
deriving DecidableEq, Repr

/-- Oracle for one `processSingleUrl` run: the outcome of each
collaborator call, plus the generated id and timestamp.
`fetchR` is `extractionService.fetchUrl` (which only throws typed
`ExtractionError`s) returning `(html, finalUrl)`; `produceR` is
`parsingService.parse` or `aiAgentService.processWithAgents`;
`renderR` is the template rendering; `saveHtmlR` is
`storageService.saveHtmlFiles` (which throws a typed `STORAGE_ERROR`
on file-system failure); `saveStoryTry`/`saveStoryCatch` are the
possible exceptions of the two `storageService.saveStory` call sites
(`none` = the call succeeded). -/
structure PipeEnv where
  fetchR : Except ErrType (String × String)
  produceR : Except JsErr ContentObj
  renderR : Except JsErr (String × String)
  saveHtmlR : Except ErrType Unit
  saveStoryTry : Option JsErr
  saveStoryCatch : Option JsErr
  newId : String
  now : String
deriving Repr

/-- The `catch` handler of `processSingleUrl`: normalize the error, mark
the story failed (leaving `content` as it currently is), persist it, and
return the structured failure.  If `saveStory` itself throws here, the
exception escapes `processSingleUrl`. -/
def handleCatch (env : PipeEnv) (story : StoryRec) (e : JsErr) :
    PResult × List StoryRec :=
  let k := normalizeErr e
  let storyF := { story with status := "failed", error := some k }
  match env.saveStoryCatch with
  | some e2 => (.raised e2, [])
  | none =>
    (.resp { success := false, storyId := none, error := some k,
             retryable := some (retryableB k) }, [storyF])

/-- `processSingleUrl(url, options)`: fetch, parse/AI-produce, assign
`storyData.content`, render templates, save HTML files, mark completed,
save the story, return the success response — any error being routed to
the catch handler with the story state reached so far.  The second
component lists the story records persisted by `saveStory`, in order. -/
def processSingleUrl (env : PipeEnv) (url : String) (existingStoryId : Option String) :
    PResult × List StoryRec :=
  let sid := existingStoryId.getD env.newId
  let story0 : StoryRec :=
    { storyId := sid, originalUrl := url, status := "processing",
      extractedAt := env.now, content := none, error := none }
  match env.fetchR with
  | .error e => handleCatch env story0 (.typed e)
  | .ok (_, finalUrl) =>
    let story1 := { story0 with originalUrl := finalUrl }
    match env.produceR with
    | .error e => handleCatch env story1 e
    | .ok content =>
      let story2 := { story1 with content := some content }
      match env.renderR with
      | .error e => handleCatch env story2 e
      | .ok _ =>
        match env.saveHtmlR with
        | .error e => handleCatch env story2 (.typed e)
        | .ok _ =>
          let story3 := { story2 with status := "completed" }
          match env.saveStoryTry with
          | some e => handleCatch env story3 e
          | none =>
            (.resp { success := true, storyId := some sid, error := none,
                     retryable := none }, [story3])

/-! ## Storage collaborator and `retryFailedStories` -/

/-- A batch row (`batches` table). -/
structure BatchRec where
  batchId : String
  totalUrls : Nat
  processed : Nat
  completed : Nat
  failed : Nat
  stories : List String
deriving DecidableEq, Repr

/-- The storage state: story rows and batch rows. -/
structure Store where
  stories : List StoryRec
  batches : List BatchRec
deriving DecidableEq, Repr

/-- `storageService.getStory`. -/
def getStoryS (st : Store) (sid : String) : Option StoryRec :=
  st.stories.find? (fun s => s.storyId = sid)

/-- `storageService.saveStory`: update the row with the same `story_id`
if it exists, otherwise insert a new row. -/
def saveStoryS (st : Store) (s : StoryRec) : Store :=
  if st.stories.any (fun t => t.storyId = s.storyId) then
    { st with stories := st.stories.map (fun t => if t.storyId = s.storyId then s else t) }
  else
    { st with stories := st.stories ++ [s] }

/-- `storageService.getBatch`. -/
def getBatchS (st : Store) (bid : String) : Option BatchRec :=
  st.batches.find? (fun b => b.batchId = bid)

/-- A partial batch update, mirroring `updateBatch`'s
`if (updates.x !== undefined)` field checks: only the present fields are
written, the others keep their stored values. -/
structure BatchUpd where
  processed : Option Nat
  completed : Option Nat
  failed : Option Nat
  stories : Option (List String)
deriving Repr

/-- `storageService.updateBatch`. -/
def updateBatchS (st : Store) (bid : String) (u : BatchUpd) : Store :=
  { st with
    batches := st.batches.map (fun b =>
      if b.batchId = bid then
        { b with
          processed := u.processed.getD b.processed
          completed := u.completed.getD b.completed
          failed := u.failed.getD b.failed
          stories := u.stories.getD b.stories }
      else b) }

/-- The failed stories of a batch, as `retryFailedStories` materializes
them: `batch.stories.map(getStory).filter(status === 'failed')`. -/
def failedStoriesOf (st : Store) (batch : BatchRec) : List StoryRec :=
  (batch.stories.filterMap (fun sid => getStoryS st sid)).filter
    (fun s => s.status = "failed")

/-- The ids of the failed stories of a batch. -/
def failedIdsOf (st : Store) (batch : BatchRec) : List String :=
  (failedStoriesOf st batch).map (fun s => s.storyId)

/-- `retryFailedStories(batchId)`: load the batch (throwing `NOT_FOUND`
when absent), materialize its stories and keep those with status
`failed`; re-run `processSingleUrl` for each with
`existingStoryId: story.storyId`, applying every `saveStory` effect to
the store; count the successes and update the batch's
`completed`/`failed` counters (`updateBatch` receives only those two
fields).  If one of the re-runs lets an exception escape, `Promise.all`
rejects and the exception propagates.  Returns the final store and the
`(retried, succeeded, stillFailed)` counts. -/
def retryFailedStories (envFor : String → PipeEnv) (st : Store) (bid : String) :
    Except JsErr (Store × Nat × Nat × Nat) :=
  match getBatchS st bid with
  | none => .error (.typed .NOT_FOUND)
  | some batch =>
    let failedStories := failedStoriesOf st batch
    if failedStories.length = 0 then .ok (st, 0, 0, 0)
    else
      let runs := failedStories.map (fun s =>
        (s, processSingleUrl (envFor s.storyId) s.originalUrl (some s.storyId)))
      match runs.find? (fun run => match run.2.1 with | .raised _ => true | _ => false) with
      | some run =>
        match run.2.1 with
        | .raised e => .error e
        | _ => .error (.typed .UNKNOWN)
      | none =>
        let st1 := runs.foldl (fun acc run => run.2.2.foldl saveStoryS acc) st
        let succeeded := (runs.filter (fun run =>
          match run.2.1 with | .resp r => r.success | .raised _ => false)).length
        let st2 := updateBatchS st1 bid
          { processed := none, completed := some (batch.completed + succeeded),
            failed := some (batch.failed - succeeded), stories := none }
        .ok (st2, failedStories.length, succeeded, failedStories.length - succeeded)
/-! ## String helpers for the JS string operations

JavaScript's `includes`, `split`, `trim` and `startsWith` are modelled on
`List Char` so that their properties can be proved by induction.
-/

/-- `leadsWith pat l` holds when `l` starts with `pat`. -/
def leadsWith : List Char → List Char → Bool
  | [], _ => true
  | _ :: _, [] => false
  | a :: as, b :: bs => a == b && leadsWith as bs

/-- JS `hay.includes(pat)` — substring test. -/
def hasSub (pat : List Char) : List Char → Bool
  | [] => leadsWith pat []
  | c :: rest => leadsWith pat (c :: rest) || hasSub pat rest

/-- `hay.includes(needle)` on strings. -/
def strHasSub (needle hay : String) : Bool := hasSub needle.data hay.data

/-- Prepend a character to the first chunk of a split result. -/
def consHead (c : Char) : List (List Char) → List (List Char)
  | [] => [[c]]
  | h :: t => (c :: h) :: t

/-- JS `s.split(sep)` for a non-empty separator `s0 :: sr`, with a step
counter (each step consumes at least one character, so `l.length` steps
suffice; the out-of-fuel branch is unreachable from `splitOnSep`). -/
def splitGo (s0 : Char) (sr : List Char) : Nat → List Char → List (List Char)
  | _, [] => [[]]
  | 0, _ :: _ => [[]]
  | fuel + 1, c :: rest =>
    if c == s0 && leadsWith sr rest then
      [] :: splitGo s0 sr fuel (rest.drop sr.length)
    else
      consHead c (splitGo s0 sr fuel rest)

/-- JS `s.split(sep)` for a non-empty separator `s0 :: sr`. -/
def splitOnSep (s0 : Char) (sr : List Char) (l : List Char) : List (List Char) :=
  splitGo s0 sr l.length l

/-- Strip leading whitespace. -/
def trimLeadWS (l : List Char) : List Char := l.dropWhile (fun c => c.isWhitespace)

/-- JS `s.trim()`: strip whitespace from both ends. -/
def jsTrim (l : List Char) : List Char := trimLeadWS ((trimLeadWS l.reverse).reverse)

/-- `trim` on strings. -/
def jsTrimS (s : String) : String := String.mk (jsTrim s.data)

/-- JS `s.toLowerCase()` (character-wise). -/
def lowerStr (s : String) : String := String.mk (s.data.map Char.toLower)

/-- JS `s.startsWith(pat)` on strings. -/
def strStarts (pat s : String) : Bool := leadsWith pat.data s.data

/-- Split a character list at every character satisfying `p`
(chunks may be empty), as `String.split` does. -/
def splitChars (p : Char → Bool) : List Char → List (List Char)
  | [] => [[]]
  | c :: rest =>
    if p c then [] :: splitChars p rest else consHead c (splitChars p rest)

/-! ## HTML tree model — parsingService.js

A parsed document is a forest of nodes (the children of cheerio's root).
Each removal pass of the source iterates a selector's match set in
document order and removes nodes from the live tree; since every
predicate used by parsingService depends only on the node's own subtree
(and, for descendant selectors, the tags of its ancestors), and a node's
descendants come strictly after it in document order, each pass is
faithfully a top-down prune: test the node against the predicate on its
current subtree, drop the whole subtree on a match, otherwise recurse
into the children.
-/

/-- An HTML node: a text node or an element with attributes and children. -/
inductive HNode where
  | textN (s : String)
  | elem (tag : String) (attrs : List (String × String)) (children : List HNode)

/-- Tag of a node (text nodes have none). -/
def tagOf : HNode → String
  | .textN _ => ""
  | .elem t _ _ => t

/-- Children of a node. -/
def childrenOf : HNode → List HNode
  | .textN _ => []
  | .elem _ _ ch => ch

/-- Attribute lookup (`$el.attr(k)`). -/
def attrOf (n : HNode) (k : String) : Option String :=
  match n with
  | .textN _ => none
  | .elem _ attrs _ => (attrs.find? (fun a => a.1 == k)).map (fun a => a.2)

/-- The whitespace-separated class tokens of an element. -/
def classTokens (n : HNode) : List String :=
  (splitChars (fun c => c.isWhitespace) ((attrOf n "class").getD "").data).map
    (fun l => String.mk l)

mutual
/-- `$el.text()`: concatenated text of the subtree. -/
def textOf : HNode → String
  | .textN s => s
  | .elem _ _ ch => textOfL ch

def textOfL : List HNode → String
  | [] => ""
  | n :: ns => textOf n ++ textOfL ns
end

mutual
/-- Matching-tag nodes of a subtree, in document order. -/
def collectTagsN (tags : List String) : HNode → List HNode
  | .textN _ => []
  | .elem t a ch =>
    (if tags.contains t then [HNode.elem t a ch] else []) ++ collectTags tags ch

/-- Nodes of the forest with one of the given tags, in document order
(used for `$('div, section, article')` and `find('p')`). -/
def collectTags (tags : List String) : List HNode → List HNode
  | [] => []
  | n :: ns => collectTagsN tags n ++ collectTags tags ns
end

mutual
/-- `img` count of one subtree. -/
def countImgsN : HNode → Nat
  | .textN _ => 0
  | .elem t _ ch => (if t == "img" then 1 else 0) + countImgs ch

/-- `find('img').length` over a forest of subtrees. -/
def countImgs : List HNode → Nat
  | [] => 0
  | n :: ns => countImgsN n + countImgs ns
end

mutual
/-- Top-down prune: drop every subtree whose root satisfies `p` (which
receives the tags of the node's ancestors, innermost first). -/
def pruneNode (p : List String → HNode → Bool) (anc : List String) : HNode → Option HNode
  | .textN s => some (.textN s)
  | .elem t a ch =>
    if p anc (.elem t a ch) then none
    else some (.elem t a (pruneList p (t :: anc) ch))

def pruneList (p : List String → HNode → Bool) (anc : List String) : List HNode → List HNode
  | [] => []
  | n :: ns =>
    match pruneNode p anc n with
    | none => pruneList p anc ns
    | some n' => n' :: pruneList p anc ns
end

mutual
/-- Node count of a tree. -/
def sizeN : HNode → Nat
  | .textN _ => 1
  | .elem _ _ ch => 1 + sizeL ch

def sizeL : List HNode → Nat
  | [] => 0
  | n :: ns => sizeN n + sizeL ns
end

/-- The CSS selector shapes used by parsingService.js. -/
inductive Sel where
  | tagSel (t : String)
  | classSel (c : String)
  | idSel (i : String)
  | classContains (s : String)
  | idContains (s : String)
  | attrEq (k v : String)
  | tagClassContains (t s : String)
  | underTag (anc child : String)

/-- Selector matching against an element (with its ancestor tags). -/
def matchSel (sel : Sel) (ancTags : List String) (n : HNode) : Bool :=
  match n with
  | .textN _ => false
  | .elem t _ _ =>
    match sel with
    | .tagSel tg => t == tg
    | .classSel c => (classTokens n).contains c
    | .idSel i => (attrOf n "id") == some i
    | .classContains s => strHasSub s ((attrOf n "class").getD "")
    | .idContains s => strHasSub s ((attrOf n "id").getD "")
    | .attrEq k v => (attrOf n k) == some v
    | .tagClassContains tg s => t == tg && strHasSub s ((attrOf n "class").getD "")
    | .underTag a c => t == c && ancTags.contains a

/-- `REMOVE_SELECTORS` block: scripts/styles/media tags and the semantic
chrome tags (`nav`, `header`, `footer`, `aside`). -/
def rsStructTags : List Sel := [Sel.tagSel "script", Sel.tagSel "style",
  Sel.tagSel "noscript", Sel.tagSel "iframe", Sel.tagSel "embed",
  Sel.tagSel "object", Sel.tagSel "svg", Sel.tagSel "canvas",
  Sel.tagSel "video", Sel.tagSel "audio", Sel.tagSel "nav",
  Sel.tagSel "header", Sel.tagSel "footer", Sel.tagSel "aside"]

/-- `REMOVE_SELECTORS` block: navigation and advertising class patterns. -/
def rsNavAds : List Sel := [Sel.classSel "navigation", Sel.classSel "nav",
  Sel.classSel "navbar", Sel.classSel "menu", Sel.classSel "header",
  Sel.classSel "footer", Sel.classSel "sidebar", Sel.classSel "widget",
  Sel.classSel "breadcrumb", Sel.classSel "breadcrumbs",
  Sel.classSel "advertisement", Sel.classSel "ad", Sel.classSel "ads",
  Sel.classSel "advert", Sel.classSel "banner", Sel.classSel "sponsored"]

/-- `REMOVE_SELECTORS` block: social sharing and comments. -/
def rsSocial : List Sel := [Sel.classSel "social-share",
  Sel.classSel "social-buttons", Sel.classSel "share-buttons",
  Sel.classSel "social", Sel.classSel "sharing", Sel.classSel "share",
  Sel.classContains "social-", Sel.classContains "share-",
  Sel.classSel "comments", Sel.classSel "comment-section",
  Sel.classSel "comment", Sel.idSel "comments"]

/-- `REMOVE_SELECTORS` block: related-content patterns. -/
def rsRelated : List Sel := [Sel.classSel "related-posts",
  Sel.classSel "related-stories", Sel.classSel "related-articles",
  Sel.classSel "related-content", Sel.classSel "related",
  Sel.classSel "recommended", Sel.classSel "suggestions",
  Sel.classSel "more-stories", Sel.classSel "more-articles",
  Sel.classSel "also-read", Sel.classSel "you-may-like",
  Sel.classSel "trending", Sel.classSel "popular",
  Sel.classContains "related-", Sel.classContains "recommended"]

/-- `REMOVE_SELECTORS` block: newsletter/popup/consent patterns. -/
def rsNewsletter : List Sel := [Sel.classSel "newsletter",
  Sel.classSel "subscription", Sel.classSel "subscribe", Sel.classSel "signup",
  Sel.classSel "popup", Sel.classSel "modal", Sel.classSel "overlay",
  Sel.classSel "cookie-notice", Sel.classSel "cookie-banner",
  Sel.classSel "cookies", Sel.classSel "gdpr", Sel.classSel "consent"]

/-- `REMOVE_SELECTORS` block: landmark roles, hidden nodes and footers. -/
def rsRolesHidden : List Sel := [Sel.attrEq "role" "navigation",
  Sel.attrEq "role" "banner", Sel.attrEq "role" "complementary",
  Sel.attrEq "role" "contentinfo", Sel.attrEq "aria-hidden" "true",
  Sel.classSel "sr-only", Sel.classSel "visually-hidden",
  Sel.classSel "hidden", Sel.classContains "footer", Sel.idContains "footer"]

/-- `REMOVE_SELECTORS` block: CTA/promo, author bio, tags, pagination,
forms, buttons. -/
def rsCtaMisc : List Sel := [Sel.classSel "cta", Sel.classSel "promo",
  Sel.classSel "promotion", Sel.classSel "call-to-action",
  Sel.classSel "author-bio", Sel.classSel "about-author",
  Sel.classSel "tags", Sel.classSel "categories", Sel.classSel "post-tags",
  Sel.classSel "article-tags", Sel.classSel "pagination",
  Sel.classSel "pager", Sel.classSel "page-numbers", Sel.tagSel "form",
  Sel.tagSel "button", Sel.attrEq "role" "button"]

/-- `REMOVE_SELECTORS` block: video/media wrappers, hero sections,
carousels. -/
def rsMediaHero : List Sel := [Sel.classSel "video-wrapper",
  Sel.classSel "video-container", Sel.classSel "video-player",
  Sel.classSel "video-embed", Sel.classSel "media-wrapper",
  Sel.classSel "media-container", Sel.classContains "video",
  Sel.classContains "player", Sel.underTag "figure" "video",
  Sel.tagSel "figcaption", Sel.classSel "hero", Sel.classSel "hero-section",
  Sel.classSel "intro-section", Sel.classSel "page-hero",
  Sel.classContains "hero", Sel.classSel "carousel", Sel.classSel "slider",
  Sel.classSel "swiper", Sel.classContains "carousel",
  Sel.classContains "slider", Sel.classContains "swiper"]

/-- `REMOVE_SELECTORS` of parsingService.js, in source order. -/
def REMOVE_SELECTORS : List Sel :=
  rsStructTags ++ rsNavAds ++ rsSocial ++ rsRelated ++ rsNewsletter ++
    rsRolesHidden ++ rsCtaMisc ++ rsMediaHero

/-- `/^\d{4} \w+/` — four digits, a space, then a word character. -/
def copyrightYearPat (s : String) : Bool :=
  match s.data with
  | a :: b :: c :: d :: e :: f :: _ =>
    a.isDigit && b.isDigit && c.isDigit && d.isDigit && e == ' ' &&
      (f.isAlphanum || f == '_')
  | _ => false

/-- Case-insensitive whole-string match (`/^pat$/i`). -/
def lowerEq (s pat : String) : Bool := lowerStr s == pat

/-- Case-insensitive anchored-at-start match (`/^pat/i`). -/
def lowerStarts (s pat : String) : Bool := strStarts pat (lowerStr s)

/-- `NOISE_TEXT_PATTERNS` block: navigation/sharing phrases. -/
def npNav : List (String → Bool) := [fun s => lowerEq s "read more",
  fun s => lowerEq s "learn more", fun s => lowerEq s "see more",
  fun s => lowerEq s "view more", fun s => lowerEq s "next",
  fun s => lowerEq s "prev", fun s => lowerEq s "previous",
  fun s => lowerEq s "share", fun s => lowerEq s "tweet",
  fun s => lowerEq s "follow us", fun s => lowerEq s "subscribe",
  fun s => lowerEq s "sign up", fun s => lowerEq s "newsletter"]

/-- `NOISE_TEXT_PATTERNS` block: related-content phrases
(`stories?` / `articles?` make the final `s` optional). -/
def npRelated : List (String → Bool) := [
  fun s => lowerEq s "related storie" || lowerEq s "related stories",
  fun s => lowerEq s "related article" || lowerEq s "related articles",
  fun s => lowerEq s "you may also like", fun s => lowerEq s "recommended",
  fun s => lowerEq s "trending", fun s => lowerEq s "popular"]

/-- `NOISE_TEXT_PATTERNS` block: legal/copyright phrases
(`/^cookie/i`, `/^Â©/` and `/^\d{4} \w+/` are start-anchored only). -/
def npLegal : List (String → Bool) := [fun s => lowerStarts s "cookie",
  fun s => lowerEq s "privacy policy", fun s => lowerEq s "terms of service",
  fun s => strStarts "Â©" s, fun s => copyrightYearPat s]

/-- `NOISE_TEXT_PATTERNS` block: media placeholders. -/
def npMedia : List (String → Bool) := [fun s => lowerEq s "video caption",
  fun s => lowerEq s "image caption", fun s => lowerEq s "caption",
  fun s => lowerEq s "play video", fun s => lowerEq s "watch video"]

/-- `NOISE_TEXT_PATTERNS` block: exploration/CTA phrases. -/
def npExplore : List (String → Bool) := [fun s => lowerEq s "explore here",
  fun s => lowerEq s "explore", fun s => lowerEq s "discover",
  fun s => lowerEq s "browse", fun s => lowerEq s "try claude",
  fun s => lowerEq s "contact sales", fun s => lowerEq s "get started",
  fun s => lowerEq s "sign in", fun s => lowerEq s "log in"]

/-- `NOISE_TEXT_PATTERNS` block: button/UI labels and form messages
(the last four are start-anchored). -/
def npUi : List (String → Bool) := [fun s => lowerEq s "button text",
  fun s => lowerEq s "click here", fun s => lowerEq s "submit",
  fun s => lowerEq s "next", fun s => lowerEq s "prev",
  fun s => lowerEq s "previous", fun s => lowerEq s "back",
  fun s => lowerEq s "close", fun s => lowerEq s "menu",
  fun s => lowerEq s "search", fun s => lowerStarts s "thank you!",
  fun s => lowerStarts s "oops!",
  fun s => lowerStarts s "something went wrong",
  fun s => lowerStarts s "your submission"]

/-- `NOISE_TEXT_PATTERNS` of parsingService.js, in source order. -/
def NOISE_TEXT_PATTERNS : List (String → Bool) :=
  npNav ++ npRelated ++ npLegal ++ npMedia ++ npExplore ++ npUi

/-- Does a (trimmed) text match one of the noise patterns? -/
def matchesNoise (s : String) : Bool := NOISE_TEXT_PATTERNS.any (fun p => p s)

/-- The `REMOVE_SELECTORS.forEach(selector => $(selector).remove())`
pass of `removeNoise`: sequential prunes, one per selector. -/
def selectorsPass (doc : List HNode) : List HNode :=
  REMOVE_SELECTORS.foldl (fun d sel => pruneList (fun anc n => matchSel sel anc n) [] d) doc

/-- The noise-text pass of `removeNoise`: an `a`/`span`/`div`/`p` element
is removed when its trimmed text is shorter than 50 characters and
matches a noise pattern. -/
def noiseTextPred (n : HNode) : Bool :=
  (tagOf n == "a" || tagOf n == "span" || tagOf n == "div" || tagOf n == "p") &&
    (let tx := jsTrimS (textOf n)
     tx.length < 50 && matchesNoise tx)

/-- `$('a, span, div, p').each(...)` removal pass. -/
def noiseTextPass (doc : List HNode) : List HNode :=
  pruneList (fun _ n => noiseTextPred n) [] doc

/-- The empty-element pass of `removeNoise`: a `p`/`div`/`span`/`section`
element with empty trimmed text and no `img` descendant is removed. -/
def emptyPred (n : HNode) : Bool :=
  (tagOf n == "p" || tagOf n == "div" || tagOf n == "span" || tagOf n == "section") &&
    jsTrimS (textOf n) == "" && countImgs (childrenOf n) == 0

/-- `$('p, div, span, section').each(...)` removal pass. -/
def emptyPass (doc : List HNode) : List HNode :=
  pruneList (fun _ n => emptyPred n) [] doc

/-- The image pass of `removeNoise`: an `img` is removed when its `src`
is missing/empty or contains one of the placeholder markers, or its
lowercased `alt` contains icon/logo/avatar. -/
def imgPred (n : HNode) : Bool :=
  tagOf n == "img" &&
    (let src := (attrOf n "src").getD ""
     let alt := lowerStr ((attrOf n "alt").getD "")
     src == "" || strHasSub "icon" src || strHasSub "logo" src ||
       strHasSub "avatar" src || strHasSub "placeholder" src ||
       strHasSub "1x1" src || strHasSub "pixel" src || strHasSub "spacer" src ||
       strHasSub "data:image/gif" src ||
       strHasSub "data:image/png;base64,iVBOR" src ||
       strHasSub "icon" alt || strHasSub "logo" alt || strHasSub "avatar" alt)

/-- `$('img').each(...)` removal pass. -/
def imgPass (doc : List HNode) : List HNode :=
  pruneList (fun _ n => imgPred n) [] doc

/-- `removeNoise($)` of parsingService.js: selector removals, then the
noise-text pass, then the empty-element pass, then the image pass. -/
def removeNoise (doc : List HNode) : List HNode :=
  imgPass (emptyPass (noiseTextPass (selectorsPass doc)))

/-- `ARTICLE_SELECTORS` of parsingService.js, in priority order. -/
def asSpecific : List Sel := [Sel.tagClassContains "article" "case-study",
  Sel.tagClassContains "article" "customer-story",
  Sel.tagClassContains "article" "story",
  Sel.classSel "case-study-content", Sel.classSel "customer-story-content",
  Sel.classSel "story-content"]

/-- `ARTICLE_SELECTORS`: standard article patterns. -/
def asStandard : List Sel := [Sel.tagSel "article", Sel.attrEq "role" "article",
  Sel.attrEq "role" "main", Sel.underTag "main" "article", Sel.tagSel "main"]

/-- `ARTICLE_SELECTORS`: common class patterns. -/
def asClasses : List Sel := [Sel.classSel "article-body",
  Sel.classSel "article-content", Sel.classSel "post-body",
  Sel.classSel "post-content", Sel.classSel "entry-content",
  Sel.classSel "story-body", Sel.classSel "content-body",
  Sel.classSel "main-content", Sel.classSel "page-content"]

/-- `ARTICLE_SELECTORS`: id patterns and generic fallbacks. -/
def asIdsGeneric : List Sel := [Sel.idSel "article-content",
  Sel.idSel "main-content", Sel.idSel "content", Sel.idSel "article",
  Sel.classSel "article", Sel.classSel "post", Sel.classSel "content",
  Sel.classSel "blog-post", Sel.classSel "story", Sel.classSel "case-study"]

/-- `ARTICLE_SELECTORS` of parsingService.js, in priority order. -/
def ARTICLE_SELECTORS : List Sel :=
  asSpecific ++ asStandard ++ asClasses ++ asIdsGeneric

mutual
/-- First match of a selector inside one subtree (pre-order). -/
def findFirstSelN (sel : Sel) (anc : List String) : HNode → Option HNode
  | .textN _ => none
  | .elem t a ch =>
    if matchSel sel anc (HNode.elem t a ch) then some (HNode.elem t a ch)
    else findFirstSel sel (t :: anc) ch

/-- `$(selector).first()`: first match in document order (pre-order). -/
def findFirstSel (sel : Sel) (anc : List String) : List HNode → Option HNode
  | [] => none
  | n :: ns =>
    match findFirstSelN sel anc n with
    | some m => some m
    | none => findFirstSel sel anc ns
end

/-- `element.text().trim().length`. -/
def trimmedTextLen (n : HNode) : Nat := (jsTrimS (textOf n)).length

/-- `element.find('p')`: paragraph descendants in document order. -/
def paraNodes (n : HNode) : List HNode := collectTags ["p"] (childrenOf n)

/-- `element.find('p').length`. -/
def paraCount (n : HNode) : Nat := (paraNodes n).length

/-- `paragraphs.text().length`: total length of the concatenated text of
the paragraph descendants. -/
def paraTextLen (n : HNode) : Nat := (textOfL (paraNodes n)).length

/-- The in-content noise selectors of `deepCleanContent`. -/
def IN_CONTENT_NOISE : List Sel := [Sel.classSel "related",
  Sel.classSel "recommended", Sel.classSel "social", Sel.classSel "share",
  Sel.classSel "author-bio", Sel.classSel "tags", Sel.classSel "categories",
  Sel.classContains "related", Sel.classContains "share",
  Sel.classContains "social"]

/-- The navigational-link predicate of `deepCleanContent`'s `find('a')`
pass: short text that looks like navigation, or a fragment href with
very short text. -/
def navLinkPred (n : HNode) : Bool :=
  tagOf n == "a" &&
    (let tx := jsTrimS (textOf n)
     let href := (attrOf n "href").getD ""
     tx.length < 30 &&
       (strHasSub "read more" (lowerStr tx) || strHasSub "learn more" (lowerStr tx) ||
        strHasSub "view" (lowerStr tx) || strHasSub "click here" (lowerStr tx) ||
        lowerStr tx == "next" || lowerStr tx == "prev" ||
        lowerStr tx == "previous" || (strHasSub "#" href && tx.length < 20)))

/-- `deepCleanContent($, content)`: on a clone of the node, remove the
in-content noise selectors from the descendants (`clone.find(sel)` never
matches the node itself), then remove short navigational links. -/
def deepCleanContent : HNode → HNode
  | .textN s => .textN s
  | .elem t a ch =>
    let ch1 := IN_CONTENT_NOISE.foldl
      (fun d sel => pruneList (fun anc n => matchSel sel anc n) [] d) ch
    .elem t a (pruneList (fun _ n => navLinkPred n) [] ch1)

/-- The selector phase of `identifyMainContent`: for each selector in
priority order, take its first match; accept it only if its trimmed text
length exceeds 500 and it has at least 2 paragraph descendants,
otherwise move to the next selector.  Returns the accepted element
before deep-cleaning. -/
def selectorPick : List Sel → List HNode → Option HNode
  | [], _ => none
  | sel :: rest, doc =>
    match findFirstSel sel [] doc with
    | some el =>
      if 500 < trimmedTextLen el ∧ 2 ≤ paraCount el then some el
      else selectorPick rest doc
    | none => selectorPick rest doc

/-- `score = paragraphCount * 100 + textLength` of the density fallback. -/
def densityScore (n : HNode) : Nat := paraCount n * 100 + paraTextLen n

/-- The density fold of `identifyMainContent`'s fallback: scan every
`div`/`section`/`article` in document order, keeping the element with
the highest score among those with at least 3 paragraphs (strictly
increasing updates, starting from `maxScore = 0`). -/
def densityFold (cands : List HNode) : Option HNode × Nat :=
  cands.foldl
    (fun acc el =>
      if 3 ≤ paraCount el ∧ acc.2 < densityScore el then (some el, densityScore el)
      else acc)
    (none, 0)

/-- The density phase: the best candidate is returned only when
`bestElement && maxScore > 500`. -/
def densityPick (doc : List HNode) : Option HNode :=
  match densityFold (collectTags ["div", "section", "article"] doc) with
  | (some b, maxScore) => if 500 < maxScore then some b else none
  | (none, _) => none

/-- `$('body')` — cheerio always materializes a body element. -/
def bodyOf (doc : List HNode) : HNode :=
  (findFirstSel (Sel.tagSel "body") [] doc).getD (HNode.elem "body" [] [])

/-- `identifyMainContent($)`: selector phase, else density fallback,
else the document body; the chosen element is deep-cleaned. -/
def identifyMainContent (doc : List HNode) : HNode :=
  match selectorPick ARTICLE_SELECTORS doc with
  | some el => deepCleanContent el
  | none =>
    match densityPick doc with
    | some b => deepCleanContent b
    | none => deepCleanContent (bodyOf doc)

/-! ## Title cleanup — parsingService.js `extractMetadata`

The title cleanup of `extractMetadata` (after the fallback chain):

    if (metadata.title && metadata.title.includes('|')) {
      metadata.title = metadata.title.split('|')[0].trim();
    }
    if (metadata.title && metadata.title.includes(' - ')) {
      const parts = metadata.title.split(' - ');
      if (parts[0].length > 10) {
        metadata.title = parts[0].trim();
      }
    }
-/

/-- The first cleanup statement: when the title is truthy and contains
`'|'`, replace it by `split('|')[0].trim()`. -/
def pipeStep (t : List Char) : List Char :=
  if t ≠ [] ∧ hasSub ['|'] t then jsTrim ((splitOnSep '|' [] t).headD []) else t

/-- The second cleanup statement: when the (possibly pipe-stripped)
title is truthy and contains `" - "`, replace it by
`split(' - ')[0].trim()` — but only when that prefix is longer than 10
characters. -/
def dashStep (t1 : List Char) : List Char :=
  if t1 ≠ [] ∧ hasSub [' ', '-', ' '] t1 then
    if 10 < ((splitOnSep ' ' ['-', ' '] t1).headD []).length then
      jsTrim ((splitOnSep ' ' ['-', ' '] t1).headD [])
    else t1
  else t1

/-- The title-suffix cleanup of `extractMetadata`, on character lists. -/
def titleCleanupL (t : List Char) : List Char := dashStep (pipeStep t)

/-- The title-suffix cleanup on strings. -/
def titleCleanup (t : String) : String := String.mk (titleCleanupL t.data)


/-! ## Concrete instances used by the theorems -/

/-- Five batch item outcomes (3 successes, 2 failures). -/
def outs5 : List ItemRes := [ItemRes.mk 1 true, ItemRes.mk 2 false,
  ItemRes.mk 3 true, ItemRes.mk 4 true, ItemRes.mk 5 false]

/-- A sample assembled Content record. -/
def cDummy : ContentObj :=
  { title := "T", textOnly := "body text", htmlStructured := "<p>body text</p>",
    wordCount := 2, estimatedReadTime := "1 minute", metadata := "{}",
    headings := [], quotes := [] }

/-- A pipeline run whose fetch fails with `TIMEOUT` and whose storage
works: `processSingleUrl` persists the failed story and returns the
structured failure. -/
def envFetchFail : PipeEnv :=
  { fetchR := Except.error ErrType.TIMEOUT, produceR := Except.ok cDummy,
    renderR := Except.ok ("s", "p"), saveHtmlR := Except.ok (),
    saveStoryTry := none, saveStoryCatch := none,
    newId := "story_aa", now := "T1" }

/-- A pipeline run that fails after the content object was assembled:
fetch, parse and render succeed, then `saveHtmlFiles` throws
`STORAGE_ERROR`. -/
def envLateFail : PipeEnv :=
  { fetchR := Except.ok ("<html></html>", "http://x"), produceR := Except.ok cDummy,
    renderR := Except.ok ("s", "p"), saveHtmlR := Except.error ErrType.STORAGE_ERROR,
    saveStoryTry := none, saveStoryCatch := none,
    newId := "story_bb", now := "T1" }

/-- A pipeline run where the fetch fails and `saveStory` itself throws
inside the catch handler. -/
def envCatchSaveFails : PipeEnv :=
  { fetchR := Except.error ErrType.TIMEOUT, produceR := Except.ok cDummy,
    renderR := Except.ok ("s", "p"), saveHtmlR := Except.ok (),
    saveStoryTry := none, saveStoryCatch := some (JsErr.untyped "ENOSPC: disk full"),
    newId := "story_cc", now := "T1" }

/-- A fully succeeding pipeline run stamped at time `T2`. -/
def envAllOk : PipeEnv :=
  { fetchR := Except.ok ("<html></html>", "http://u1"), produceR := Except.ok cDummy,
    renderR := Except.ok ("s", "p"), saveHtmlR := Except.ok (),
    saveStoryTry := none, saveStoryCatch := none,
    newId := "story_new", now := "T2" }

/-- A failed story row as persisted by an earlier batch run. -/
def s1Failed : StoryRec :=
  { storyId := "story_s1", originalUrl := "http://u1", status := "failed",
    extractedAt := "T1", content := none, error := some ErrType.TIMEOUT }

/-- A batch whose single story failed. -/
def b1Batch : BatchRec :=
  { batchId := "batch_b1", totalUrls := 1, processed := 1, completed := 0,
    failed := 1, stories := ["story_s1"] }

/-- Storage holding `s1Failed` and `b1Batch`. -/
def store0 : Store := { stories := [s1Failed], batches := [b1Batch] }

/-- The storage state after retrying `store0`'s failed story with a
succeeding pipeline stamped `T2`. -/
def store0Retried : Store :=
  Store.mk
    [StoryRec.mk "story_s1" "http://u1" "completed" "T2" (some cDummy) none]
    [BatchRec.mk "batch_b1" 1 1 1 0 ["story_s1"]]

/-- A document whose only content is a decorative image inside a `div`:
the first `removeNoise` removes the image (its `src` contains "logo")
but keeps the then-nonempty `div`; a second run removes the now-empty
`div`. -/
def noiseCexDoc : List HNode :=
  [HNode.elem "body" [] [HNode.elem "div" [] [HNode.elem "img" [("src", "logo.png")] []]]]

/-- A two-character paragraph. -/
def pTiny : HNode := HNode.elem "p" [] [HNode.textN "ab"]

/-- A `div` with five tiny paragraphs: density score
`5·100 + 10 = 510 > 500` but visible text length only 10. -/
def divDense : HNode :=
  HNode.elem "div" [("class", "x")] [pTiny, pTiny, pTiny, pTiny, pTiny]

/-- 600 characters of body text. -/
def longText : String := String.mk (List.replicate 600 'a')

/-- A document whose body has 610 characters of visible text (≥ 500)
while the only density candidate is `divDense` with 10. -/
def densityCexDoc : List HNode :=
  [HNode.elem "body" [] [HNode.textN longText, divDense]]

/-- A 501-character paragraph. -/
def pLong : HNode := HNode.elem "p" [] [HNode.textN (String.mk (List.replicate 501 'b'))]

/-- An `article` with two paragraphs and > 500 characters of text: the
selector phase accepts it. -/
def articleDoc : List HNode :=
  [HNode.elem "body" [] [HNode.elem "article" [] [pLong, pTiny]]]

/-- A document with nothing the selector or density phases accept. -/
def bareDoc : List HNode := [HNode.elem "body" [] [HNode.textN "hi"]]

/-! ## Theorems -/

/-- Helper: a wait event in a `fetchLoop` trace carries the backoff delay
of its attempt, happens only below `maxRetries`, and follows a retryable
failure of the same attempt. -/
theorem fetchLoop_wait_shape (att : SResp → Nat → Nat → AttemptStep)
    (server : Nat → SResp) (maxRetries : Nat) :
    ∀ (rem attempt : Nat) (lastE : ErrType) (n ms : Nat),
      FEv.wait n ms ∈ (fetchLoop att server maxRetries rem attempt lastE).2 →
      ms = getBackoffDelay n 1000 ∧ n < maxRetries ∧
        ∃ e, retryableB e = true ∧
          FEv.failAt n e ∈ (fetchLoop att server maxRetries rem attempt lastE).2 := by
  intro rem
  induction rem with
  | zero =>
    intro attempt lastE n ms h
    simp [fetchLoop] at h
  | succ k ih =>
    intro attempt lastE n ms h
    cases hstep : att (server attempt) attempt maxRetries with
    | succ st =>
      have htr : (fetchLoop att server maxRetries (k + 1) attempt lastE).2 =
          [FEv.succAt attempt st] := by
        rw [fetchLoop, hstep]
      rw [htr] at h
      simp at h
    | throwNow e =>
      have htr : (fetchLoop att server maxRetries (k + 1) attempt lastE).2 =
          [FEv.failAt attempt e] := by
        rw [fetchLoop, hstep]
      rw [htr] at h
      simp at h
    | record e =>
      by_cases hc : (retryableB e && decide (attempt < maxRetries)) = true
      · have htr : (fetchLoop att server maxRetries (k + 1) attempt lastE).2 =
            FEv.failAt attempt e :: FEv.wait attempt (getBackoffDelay attempt 1000) ::
              (fetchLoop att server maxRetries k (attempt + 1) e).2 := by
          rw [fetchLoop, hstep]; simp [hc]
        rw [htr] at h ⊢
        simp only [List.mem_cons] at h
        rcases h with h | h | h
        · exact absurd h (by simp)
        · have h1 : n = attempt := by injection h
          have h2 : ms = getBackoffDelay attempt 1000 := by injection h
          subst h1; subst h2
          have hc' : retryableB e = true ∧ n < maxRetries := by simpa using hc
          exact ⟨rfl, hc'.2, e, hc'.1, by simp⟩
        · rcases ih (attempt + 1) e n ms h with ⟨h1, h2, e', h3, h4⟩
          exact ⟨h1, h2, e', h3, by simp [h4]⟩
      · have htr : (fetchLoop att server maxRetries (k + 1) attempt lastE).2 =
            FEv.failAt attempt e :: (fetchLoop att server maxRetries k (attempt + 1) e).2 := by
          rw [fetchLoop, hstep]; simp [hc]
        rw [htr] at h ⊢
        simp only [List.mem_cons] at h
        rcases h with h | h
        · exact absurd h (by simp)
        · rcases ih (attempt + 1) e n ms h with ⟨h1, h2, e', h3, h4⟩
          exact ⟨h1, h2, e', h3, by simp [h4]⟩

/-- C10: the backoff delay for 1-indexed attempt `n` is `3^(n-1) × 1000` —
1000, 3000, 9000 ms for attempts 1, 2, 3 — and in the fetch loop a wait
(of exactly that duration) is inserted only after a retryable failure of
attempt `n` and only while `n < maxRetries`. -/
theorem backoff_schedule :
    (getBackoffDelay 1 1000 = 1000 ∧ getBackoffDelay 2 1000 = 3000 ∧
      getBackoffDelay 3 1000 = 9000) ∧
    ∀ (att : SResp → Nat → Nat → AttemptStep) (server : Nat → SResp)
      (maxRetries rem attempt : Nat) (lastE : ErrType) (n ms : Nat),
      FEv.wait n ms ∈ (fetchLoop att server maxRetries rem attempt lastE).2 →
      ms = 3 ^ (n - 1) * 1000 ∧ n < maxRetries ∧
        ∃ e, retryableB e = true ∧
          FEv.failAt n e ∈ (fetchLoop att server maxRetries rem attempt lastE).2 := by
  refine ⟨⟨by decide, by decide, by decide⟩, ?_⟩
  intro att server maxRetries rem attempt lastE n ms h
  rcases fetchLoop_wait_shape att server maxRetries rem attempt lastE n ms h with
    ⟨h1, h2, e, h3, h4⟩
  exact ⟨h1, h2, e, h3, h4⟩

/-- Witness for C10 at the spec's 429 scenario: the browser-variant
fetch run on `server429` contains the wait of attempt 1, and the theorem
yields its delay value, bound and preceding retryable failure. -/
theorem backoff_schedule_witness :
    FEv.wait 1 1000 ∈ (fetchLoop attemptBrowser server429 3 3 1 ErrType.UNKNOWN).2 ∧
    (1000 = 3 ^ (1 - 1) * 1000 ∧ 1 < 3 ∧
      ∃ e, retryableB e = true ∧
        FEv.failAt 1 e ∈ (fetchLoop attemptBrowser server429 3 3 1 ErrType.UNKNOWN).2) :=
  ⟨by decide,
    backoff_schedule.2 attemptBrowser server429 3 3 1 ErrType.UNKNOWN 1 1000 (by decide)⟩

/-- C1: the end-to-end 429 scenario (429 on attempts 1–2, 200 on attempt
3, `maxRetries = 3`).  In the plain-HTTP variant the `status >= 400`
check precedes the `status === 429` check, so attempt 1 throws
`EXTRACTION_FAILED` (non-retryable) at once: no backoff wait ever
happens and the fetch fails.  The browser-capable variant checks 429
first and behaves as the claim states: RateLimited, retried, success
after exactly 2 backoff waits. -/
theorem fetchUrl_429_divergence :
    fetchUrlSimple true server429 3 =
      (FOut.errOut ErrType.EXTRACTION_FAILED,
        [FEv.failAt 1 ErrType.EXTRACTION_FAILED]) ∧
    countWaits (fetchUrlSimple true server429 3).2 = 0 ∧
    fetchUrlBrowser true server429 3 =
      (FOut.ok 200,
        [FEv.failAt 1 ErrType.RATE_LIMITED, FEv.wait 1 1000,
         FEv.failAt 2 ErrType.RATE_LIMITED, FEv.wait 2 3000,
         FEv.succAt 3 200]) ∧
    countWaits (fetchUrlBrowser true server429 3).2 = 2 := by
  exact ⟨by decide, by decide, by decide, by decide⟩

/-- Helper: flattening the windows gives back the list (positive window
size). -/

theorem windowsGo_flatten (c : Nat) :
    ∀ (fuel : Nat) (l : List α), l.length ≤ fuel →
      (windowsGo (c + 1) fuel l).flatten = l := by
  intro fuel
  induction fuel with
  | zero =>
    intro l hl
    cases l with
    | nil => simp [windowsGo]
    | cons x xs => simp at hl
  | succ f ih =>
    intro l hl
    cases l with
    | nil => simp [windowsGo]
    | cons x xs =>
      rw [windowsGo]
      simp only [List.flatten_cons]
      rw [ih (xs.drop c) (by simp only [List.length_drop]; simp only [List.length_cons] at hl; omega)]
      show (x :: xs).take (c + 1) ++ (x :: xs).drop (c + 1) = x :: xs
      exact List.take_append_drop _ _

/-- Helper: `windows (c+1)` is a partition of the input list. -/
theorem windows_flatten (c : Nat) (l : List α) : (windows (c + 1) l).flatten = l :=
  windowsGo_flatten c l.length l le_rfl

/-- Helper: a filter and its complement split the length. -/
theorem filter_split_length (p : ItemRes → Bool) :
    (l : List ItemRes) → (l.filter p).length + (l.filter (fun r => !p r)).length = l.length
  | [] => rfl
  | r :: rs => by
    cases hp : p r <;>
      simp [List.filter, hp, ← filter_split_length p rs] <;> omega

/-- Helper: the k-th persisted snapshot is computed from the results
accumulated over the first k+1 windows. -/
theorem batchSnaps_get :
    ∀ (ws : List (List ItemRes)) (prev : List ItemRes) (k : Nat)
      (h : k < (batchSnaps prev ws).length),
      (batchSnaps prev ws).get ⟨k, h⟩ = snapAfter (prev ++ (ws.take (k + 1)).flatten) := by
  intro ws
  induction ws with
  | nil => intro prev k h; simp [batchSnaps] at h
  | cons w ws ih =>
    intro prev k h
    cases k with
    | zero => simp [batchSnaps, List.get]
    | succ k =>
      have h' : k < (batchSnaps (prev ++ w) ws).length := by
        simpa [batchSnaps] using h
      have := ih (prev ++ w) k h'
      simp only [batchSnaps, List.get] at this ⊢
      rw [this]
      simp [List.append_assoc]

/-- Helper: a prefix of the windows contributes at most all items. -/
theorem flatten_take_le (ws : List (List ItemRes)) (m : Nat) :
    ((ws.take m).flatten).length ≤ ws.flatten.length := by
  conv_rhs => rw [← List.take_append_drop m ws]
  rw [List.flatten_append, List.length_append]
  omega

/-- C2: `processBatch` partitions the input into consecutive windows of
the concurrency size (`flatten` of the windows is the input), persists
one counter tuple per window, and in every persisted snapshot
`processed = completed + failed` equals the number of items started so
far and never exceeds the total; for 5 items and concurrency 2 the
window sizes are `[2, 2, 1]` and `processed` after the first window is
exactly 2. -/
theorem processBatch_windows :
    (∀ (c : Nat) (outs : List ItemRes), 0 < c → (windows c outs).flatten = outs) ∧
    (∀ (c : Nat) (outs : List ItemRes) (k : Nat)
        (h : k < (processBatchSnaps c outs).length), 0 < c →
      ((processBatchSnaps c outs).get ⟨k, h⟩).completed +
          ((processBatchSnaps c outs).get ⟨k, h⟩).failed =
        ((processBatchSnaps c outs).get ⟨k, h⟩).processed ∧
      ((processBatchSnaps c outs).get ⟨k, h⟩).processed =
        (((windows c outs).take (k + 1)).flatten).length ∧
      ((processBatchSnaps c outs).get ⟨k, h⟩).processed ≤ outs.length) ∧
    (∀ outs : List ItemRes, outs.length = 5 →
      (windows 2 outs).map List.length = [2, 2, 1] ∧
      ∀ h : 0 < (processBatchSnaps 2 outs).length,
        ((processBatchSnaps 2 outs).get ⟨0, h⟩).processed = 2) := by
  have hjoin : ∀ (c : Nat) (outs : List ItemRes), 0 < c → (windows c outs).flatten = outs := by
    intro c outs hc
    cases c with
    | zero => omega
    | succ c => exact windows_flatten c outs
  refine ⟨hjoin, ?_, ?_⟩
  · intro c outs k h hc
    have hget := batchSnaps_get (windows c outs) [] k (by simpa [processBatchSnaps] using h)
    have hget' : (processBatchSnaps c outs).get ⟨k, h⟩ =
        snapAfter (((windows c outs).take (k + 1)).flatten) := by
      simpa [processBatchSnaps] using hget
    rw [hget']
    refine ⟨?_, ?_, ?_⟩
    · simpa [snapAfter] using
        filter_split_length (fun r => r.success) (((windows c outs).take (k + 1)).flatten)
    · simp [snapAfter]
    · have h1 := flatten_take_le (windows c outs) (k + 1)
      rw [hjoin c outs hc] at h1
      simpa [snapAfter] using h1
  · intro outs h5
    match outs, h5 with
    | [a, b, c', d, e], _ =>
      constructor
      · simp [windows, windowsGo]
      · intro h
        simp [processBatchSnaps, windows, windowsGo, batchSnaps, snapAfter, List.get]

/-- Witness for C2 on a concrete 5-item batch with concurrency 2. -/
theorem processBatch_windows_witness :
    (windows 2 outs5).flatten = outs5 ∧
    ((processBatchSnaps 2 outs5).get ⟨0, by decide⟩).completed +
        ((processBatchSnaps 2 outs5).get ⟨0, by decide⟩).failed =
      ((processBatchSnaps 2 outs5).get ⟨0, by decide⟩).processed ∧
    (windows 2 outs5).map List.length = [2, 2, 1] ∧
    ((processBatchSnaps 2 outs5).get ⟨0, by decide⟩).processed = 2 :=
  ⟨processBatch_windows.1 2 outs5 (by decide),
   (processBatch_windows.2.1 2 outs5 0 (by decide) (by decide)).1,
   (processBatch_windows.2.2 outs5 (by decide)).1,
   (processBatch_windows.2.2 outs5 (by decide)).2 (by decide)⟩

/-- C6: a failed item's Story IS persisted (under its real id), but the
failure response carries `storyId: null`, so `processBatch`'s
`results.filter(r => r.storyId)` drops it from the batch's `stories`:
after one failed item the persisted snapshot has `stories = []` although
one item reached a terminal state with a materialized Story. -/
theorem storyIds_excludes_failed :
    (processSingleUrl envFetchFail "http://x" none).2 =
      [StoryRec.mk "story_aa" "http://x" "failed" "T1" none (some ErrType.TIMEOUT)] ∧
    (processSingleUrl envFetchFail "http://x" none).1 =
      PResult.resp (PResp.mk false none (some ErrType.TIMEOUT) (some true)) ∧
    processBatchSnaps 1 [ItemRes.mk 7 false] = [Snapshot.mk 1 0 1 []] ∧
    materializedCount [ItemRes.mk 7 false] = 1 := by
  exact ⟨by decide, by decide, by decide, by decide⟩

/-- C5 counterexample: when `saveHtmlFiles` throws `STORAGE_ERROR` after
the content object was assembled, the catch handler marks the story
failed but leaves `storyData.content` as it is, so a Story is persisted
with `status = "failed"` and non-null content — the claimed invariant
fails in the failed-after-assembly case. -/
theorem failed_story_keeps_content :
    (processSingleUrl envLateFail "http://x" none).2 =
      [StoryRec.mk "story_bb" "http://x" "failed" "T1" (some cDummy)
        (some ErrType.STORAGE_ERROR)] ∧
    some cDummy ≠ (none : Option ContentObj) := by
  exact ⟨by decide, by decide⟩

/-- C5 amended: a Story persisted with `status = "completed"` always has
non-null content, and a failure *before* the content object is
assembled (fetch error, or parse/AI-produce error) persists the failed
Story with `content = null`; only failures after assembly (render, file
save, story save) persist a failed Story that retains the assembled
content. -/
theorem content_status_invariant :
    (∀ (env : PipeEnv) (url : String) (exid : Option String) (s : StoryRec),
      s ∈ (processSingleUrl env url exid).2 → s.status = "completed" →
        s.content ≠ none) ∧
    (∀ (env : PipeEnv) (url : String) (exid : Option String) (s : StoryRec)
        (e : ErrType), env.fetchR = Except.error e →
      s ∈ (processSingleUrl env url exid).2 →
        s.status = "failed" ∧ s.content = none) ∧
    (∀ (env : PipeEnv) (url : String) (exid : Option String) (s : StoryRec)
        (v : String × String) (e : JsErr),
      env.fetchR = Except.ok v → env.produceR = Except.error e →
      s ∈ (processSingleUrl env url exid).2 →
        s.status = "failed" ∧ s.content = none) := by
  refine ⟨?_, ?_, ?_⟩
  · intro env url exid s hs hst
    rcases env with ⟨fr, pr, rr, shr, st1, st2, nid, now⟩
    cases fr <;> cases pr <;> cases rr <;> cases shr <;> cases st1 <;> cases st2 <;>
      simp_all [processSingleUrl, handleCatch]
  · intro env url exid s e hf hs
    rcases env with ⟨fr, pr, rr, shr, st1, st2, nid, now⟩
    cases fr <;> cases st2 <;> simp_all [processSingleUrl, handleCatch]
  · intro env url exid s v e hf hp hs
    rcases env with ⟨fr, pr, rr, shr, st1, st2, nid, now⟩
    cases fr <;> cases pr <;> cases st2 <;> simp_all [processSingleUrl, handleCatch]

/-- Witness for C5 amended: the completed-run story has content; the
fetch-failed run persists a failed story with null content. -/
theorem content_status_invariant_witness :
    (StoryRec.mk "story_new" "http://u1" "completed" "T2" (some cDummy) none).content ≠
      none ∧
    ((StoryRec.mk "story_aa" "http://x" "failed" "T1" none (some ErrType.TIMEOUT)).status
        = "failed" ∧
      (StoryRec.mk "story_aa" "http://x" "failed" "T1" none
          (some ErrType.TIMEOUT)).content = none) :=
  ⟨content_status_invariant.1 envAllOk "http://u1" none
      (StoryRec.mk "story_new" "http://u1" "completed" "T2" (some cDummy) none)
      (by decide) (by decide),
    content_status_invariant.2.1 envFetchFail "http://x" none
      (StoryRec.mk "story_aa" "http://x" "failed" "T1" none (some ErrType.TIMEOUT))
      ErrType.TIMEOUT rfl (by decide)⟩

/-- C4 counterexample: the pipeline error is caught, but persisting the
failed Story inside the catch handler is not protected — when
`storageService.saveStory` throws there, the exception escapes
`processSingleUrl` (and nothing is persisted). -/
theorem exception_escapes_on_storage_failure :
    processSingleUrl envCatchSaveFails "http://x" none =
      (PResult.raised (JsErr.untyped "ENOSPC: disk full"), []) := by
  decide

/-- C4 amended: provided persisting the failed Story succeeds
(`saveStory` in the catch handler does not throw), `processSingleUrl`
returns a structured response for every combination of collaborator
outcomes: either a success, or a failure carrying a normalized error
kind with its `retryable` flag, with the Story persisted as `failed`
with that kind — no exception reaches the caller. -/
theorem processSingleUrl_total :
    ∀ (env : PipeEnv) (url : String) (exid : Option String),
      env.saveStoryCatch = none →
      ∃ r, (processSingleUrl env url exid).1 = PResult.resp r ∧
        (r.success = true ∨
          (r.success = false ∧
            ∃ k, r.error = some k ∧ r.retryable = some (retryableB k) ∧
              ∃ s, s ∈ (processSingleUrl env url exid).2 ∧
                s.status = "failed" ∧ s.error = some k)) := by
  intro env url exid hcatch
  rcases env with ⟨fr, pr, rr, shr, st1, st2, nid, now⟩
  simp only at hcatch
  subst hcatch
  cases fr <;> cases pr <;> cases rr <;> cases shr <;> cases st1 <;>
    simp_all [processSingleUrl, handleCatch]

/-- Witness for C4 amended at the fetch-failure environment. -/
theorem processSingleUrl_total_witness :
    ∃ r, (processSingleUrl envFetchFail "http://x" none).1 = PResult.resp r ∧
      (r.success = true ∨
        (r.success = false ∧
          ∃ k, r.error = some k ∧ r.retryable = some (retryableB k) ∧
            ∃ s, s ∈ (processSingleUrl envFetchFail "http://x" none).2 ∧
              s.status = "failed" ∧ s.error = some k)) :=
  processSingleUrl_total envFetchFail "http://x" none rfl

mutual
/-- Helper: pruning one subtree never increases the node count. -/
theorem pruneNode_size_le (p : List String → HNode → Bool) (anc : List String) :
    (n : HNode) → ((pruneNode p anc n).map sizeN).getD 0 ≤ sizeN n
  | .textN s => by simp [pruneNode, sizeN]
  | .elem t a ch => by
    by_cases h : p anc (.elem t a ch)
    · simp [pruneNode, h]
    · have := pruneList_size_le p (t :: anc) ch
      simp only [pruneNode, h, if_neg]
      simpa [sizeN] using this

/-- Helper: pruning a forest never increases the node count. -/
theorem pruneList_size_le (p : List String → HNode → Bool) (anc : List String) :
    (l : List HNode) → sizeL (pruneList p anc l) ≤ sizeL l
  | [] => Nat.le_refl _
  | n :: ns => by
    have hn := pruneNode_size_le p anc n
    have hns := pruneList_size_le p anc ns
    cases hpn : pruneNode p anc n with
    | none =>
      rw [hpn] at hn
      simp only [pruneList, hpn, sizeL]
      omega
    | some m =>
      rw [hpn] at hn
      simp at hn
      simp only [pruneList, hpn, sizeL]
      omega
end

/-- Helper: a fold of selector prunes never increases the node count. -/
theorem foldl_prune_size_le (sels : List Sel) :
    ∀ doc : List HNode,
      sizeL (sels.foldl (fun d sel => pruneList (fun anc n => matchSel sel anc n) [] d) doc) ≤
        sizeL doc := by
  induction sels with
  | nil => intro doc; simp
  | cons sel rest ih =>
    intro doc
    calc sizeL ((sel :: rest).foldl
          (fun d sel => pruneList (fun anc n => matchSel sel anc n) [] d) doc)
        ≤ sizeL (pruneList (fun anc n => matchSel sel anc n) [] doc) :=
          ih (pruneList (fun anc n => matchSel sel anc n) [] doc)
      _ ≤ sizeL doc := pruneList_size_le _ [] doc

/-- Helper: every pass of `removeNoise` only removes nodes. -/
theorem removeNoise_size_le (doc : List HNode) :
    sizeL (removeNoise doc) ≤ sizeL doc := by
  unfold removeNoise imgPass emptyPass noiseTextPass selectorsPass
  calc sizeL (pruneList (fun _ n => imgPred n) []
          (pruneList (fun _ n => emptyPred n) []
            (pruneList (fun _ n => noiseTextPred n) []
              (REMOVE_SELECTORS.foldl
                (fun d sel => pruneList (fun anc n => matchSel sel anc n) [] d) doc))))
      ≤ sizeL (pruneList (fun _ n => emptyPred n) []
          (pruneList (fun _ n => noiseTextPred n) []
            (REMOVE_SELECTORS.foldl
              (fun d sel => pruneList (fun anc n => matchSel sel anc n) [] d) doc))) :=
        pruneList_size_le _ _ _
    _ ≤ sizeL (pruneList (fun _ n => noiseTextPred n) []
          (REMOVE_SELECTORS.foldl
            (fun d sel => pruneList (fun anc n => matchSel sel anc n) [] d) doc)) :=
        pruneList_size_le _ _ _
    _ ≤ sizeL (REMOVE_SELECTORS.foldl
          (fun d sel => pruneList (fun anc n => matchSel sel anc n) [] d) doc) :=
        pruneList_size_le _ _ _
    _ ≤ sizeL doc := foldl_prune_size_le REMOVE_SELECTORS doc

/-- C7 amended: `removeNoise` never errors and only removes nodes — in
particular a second application yields a forest no larger than the
first's result — but it is not a fixed point (see the counterexample). -/
theorem removeNoise_contracting :
    ∀ doc : List HNode,
      sizeL (removeNoise doc) ≤ sizeL doc ∧
        sizeL (removeNoise (removeNoise doc)) ≤ sizeL (removeNoise doc) :=
  fun doc => ⟨removeNoise_size_le doc, removeNoise_size_le (removeNoise doc)⟩

/-- C7 counterexample: on a document whose `div` contains only a
decorative image, the first `removeNoise` removes the image (the
empty-element pass ran before the image pass, and at that time the `div`
still contained an `img`), and only the second application removes the
now-empty `div`: `removeNoise` is not idempotent. -/
theorem removeNoise_not_idempotent :
    sizeL (removeNoise (removeNoise noiseCexDoc)) < sizeL (removeNoise noiseCexDoc) ∧
    removeNoise (removeNoise noiseCexDoc) ≠ removeNoise noiseCexDoc := by
  refine ⟨by decide, fun h => ?_⟩
  have h1 := congrArg sizeL h
  have h2 : sizeL (removeNoise (removeNoise noiseCexDoc)) ≠
      sizeL (removeNoise noiseCexDoc) := Nat.ne_of_lt (by decide)
  exact h2 h1

/-- Helper: the selector phase only accepts elements passing both gates. -/
theorem selectorPick_gates :
    ∀ (sels : List Sel) (doc : List HNode) (n : HNode),
      selectorPick sels doc = some n →
        500 < trimmedTextLen n ∧ 2 ≤ paraCount n := by
  intro sels
  induction sels with
  | nil => intro doc n h; simp [selectorPick] at h
  | cons sel rest ih =>
    intro doc n h
    rw [selectorPick] at h
    cases hf : findFirstSel sel [] doc with
    | none => rw [hf] at h; exact ih doc n h
    | some el =>
      simp only [hf] at h
      by_cases hg : 500 < trimmedTextLen el ∧ 2 ≤ paraCount el
      · rw [if_pos hg] at h
        cases h
        exact hg
      · rw [if_neg hg] at h
        exact ih doc n h

/-- Helper: invariant of the density fold — a selected best element has
at least 3 paragraphs and the tracked maximum is its score. -/
theorem densityFold_inv :
    ∀ (cands : List HNode) (acc : Option HNode × Nat),
      (∀ b, acc.1 = some b → 3 ≤ paraCount b ∧ acc.2 = densityScore b) →
      ∀ b,
        (cands.foldl (fun acc el =>
            if 3 ≤ paraCount el ∧ acc.2 < densityScore el then (some el, densityScore el)
            else acc) acc).1 = some b →
        3 ≤ paraCount b ∧
          (cands.foldl (fun acc el =>
              if 3 ≤ paraCount el ∧ acc.2 < densityScore el then (some el, densityScore el)
              else acc) acc).2 = densityScore b := by
  intro cands
  induction cands with
  | nil =>
    intro acc hacc b hb
    simp only [List.foldl_nil] at hb ⊢
    exact hacc b hb
  | cons el rest ih =>
    intro acc hacc b hb
    simp only [List.foldl_cons] at hb ⊢
    by_cases hc : 3 ≤ paraCount el ∧ acc.2 < densityScore el
    · rw [if_pos hc] at hb ⊢
      exact ih (some el, densityScore el)
        (fun b' hb' => by cases hb'; exact ⟨hc.1, rfl⟩) b hb
    · rw [if_neg hc] at hb ⊢
      exact ih acc hacc b hb

/-- Helper: the density phase only returns an element with at least 3
paragraph descendants and score above 500. -/
theorem densityPick_gates :
    ∀ (doc : List HNode) (n : HNode),
      densityPick doc = some n → 3 ≤ paraCount n ∧ 500 < densityScore n := by
  intro doc n h
  rw [densityPick, densityFold] at h
  cases hfold : (collectTags ["div", "section", "article"] doc).foldl
      (fun acc el =>
        if 3 ≤ paraCount el ∧ acc.2 < densityScore el then (some el, densityScore el)
        else acc) (none, 0) with
  | mk ob m =>
    rw [hfold] at h
    cases ob with
    | none => simp at h
    | some b =>
      simp only at h
      by_cases hm : 500 < m
      · rw [if_pos hm] at h
        cases h
        have hinv := densityFold_inv (collectTags ["div", "section", "article"] doc)
          (none, 0) (by intro b' hb'; simp at hb') n (by rw [hfold])
        rcases hinv with ⟨h3, hsc⟩
        rw [hfold] at hsc
        simp only at hsc
        exact ⟨h3, by omega⟩
      · rw [if_neg hm] at h
        simp at h

/-- C8 amended: the guarantee holds for the selector phase (any accepted
element has trimmed text > 500 and ≥ 2 paragraphs), the density fallback
only guarantees ≥ 3 paragraphs and `100·paragraphs + paragraphText > 500`
(its element's own text may be far below 500), and when both phases
fail the body is returned (deep-cleaned) regardless of its length. -/
theorem identifyMainContent_gates :
    (∀ (sels : List Sel) (doc : List HNode) (n : HNode),
      selectorPick sels doc = some n →
        500 < trimmedTextLen n ∧ 2 ≤ paraCount n) ∧
    (∀ (doc : List HNode) (n : HNode),
      densityPick doc = some n → 3 ≤ paraCount n ∧ 500 < densityScore n) ∧
    (∀ doc : List HNode,
      selectorPick ARTICLE_SELECTORS doc = none → densityPick doc = none →
        identifyMainContent doc = deepCleanContent (bodyOf doc)) := by
  refine ⟨selectorPick_gates, densityPick_gates, ?_⟩
  intro doc h1 h2
  rw [identifyMainContent, h1, h2]

/-- Witness for C8 amended: a qualifying `article` is accepted by the
selector phase; `densityCexDoc`'s dense `div` is picked by the density
fallback; a bare document falls through to the body. -/
theorem identifyMainContent_gates_witness :
    (500 < trimmedTextLen (HNode.elem "article" [] [pLong, pTiny]) ∧
      2 ≤ paraCount (HNode.elem "article" [] [pLong, pTiny])) ∧
    (3 ≤ paraCount divDense ∧ 500 < densityScore divDense) ∧
    identifyMainContent bareDoc = deepCleanContent (bodyOf bareDoc) :=
  ⟨identifyMainContent_gates.1 ARTICLE_SELECTORS articleDoc
      (HNode.elem "article" [] [pLong, pTiny]) rfl,
   identifyMainContent_gates.2.1 densityCexDoc divDense rfl,
   identifyMainContent_gates.2.2 bareDoc rfl rfl⟩

/-- C8 counterexample: on `densityCexDoc` the density fallback returns
the tiny-text `div` (visible text length 10 < 500) although the body — a
candidate — has 610 ≥ 500 characters; the claim's guarantee fails. -/
theorem identifyMainContent_short_result :
    trimmedTextLen (identifyMainContent densityCexDoc) < 500 ∧
    500 ≤ trimmedTextLen (bodyOf densityCexDoc) := by
  exact ⟨by decide, by decide⟩

/-- Helper: a list starts with itself. -/
theorem leadsWith_append_self : ∀ (sr q : List Char), leadsWith sr (sr ++ q) = true := by
  intro sr
  induction sr with
  | nil => intro q; rfl
  | cons c cs ih => intro q; simp [leadsWith, ih]

/-- Helper: `includes` finds a pattern sitting between two parts. -/
theorem hasSub_mid : ∀ (p pat q : List Char), hasSub pat (p ++ pat ++ q) = true := by
  intro p pat q
  induction p with
  | nil =>
    cases pat with
    | nil => cases q with
      | nil => rfl
      | cons c r => simp [hasSub, leadsWith]
    | cons c cs =>
      simp only [List.nil_append, List.cons_append, hasSub]
      rw [leadsWith]
      simp [leadsWith_append_self]
  | cons a p' ih =>
    simp only [List.cons_append, hasSub, Bool.or_eq_true, List.append_eq,
      List.append_assoc]
    rw [List.append_assoc] at ih
    exact Or.inr ih

/-- Helper: `includes` fails when the pattern head never occurs. -/
theorem hasSub_none : ∀ (s0 : Char) (sr hay : List Char),
    (∀ c ∈ hay, c ≠ s0) → hasSub (s0 :: sr) hay = false := by
  intro s0 sr hay
  induction hay with
  | nil => intro _; rfl
  | cons c rest ih =>
    intro hmem
    have hc : c ≠ s0 := hmem c (List.mem_cons_self c rest)
    have hb : (s0 == c) = false := by
      simp [beq_iff_eq]
      exact fun he => hc he.symm
    simp only [hasSub, leadsWith, hb, Bool.false_and, Bool.false_or]
    exact ih (fun d hd => hmem d (List.mem_cons_of_mem c hd))

/-- Helper: head of a split after prepending a character. -/
theorem consHead_headD (c : Char) (L : List (List Char)) :
    (consHead c L).headD [] = c :: L.headD [] := by
  cases L <;> rfl

/-- Helper: `split(sep)[0]` is the part before the first separator. -/
theorem splitGo_head : ∀ (p : List Char) (s0 : Char) (sr q : List Char) (fuel : Nat),
    (∀ c ∈ p, c ≠ s0) → (p ++ s0 :: (sr ++ q)).length ≤ fuel →
    (splitGo s0 sr fuel (p ++ s0 :: (sr ++ q))).headD [] = p := by
  intro p
  induction p with
  | nil =>
    intro s0 sr q fuel _ hlen
    cases fuel with
    | zero => simp at hlen
    | succ f =>
      simp only [List.nil_append]
      rw [splitGo]
      simp [leadsWith_append_self]
  | cons a p' ih =>
    intro s0 sr q fuel hmem hlen
    cases fuel with
    | zero => simp at hlen
    | succ f =>
      have ha : a ≠ s0 := hmem a (List.mem_cons_self a p')
      have hb : (a == s0) = false := by simp [beq_iff_eq]; exact ha
      simp only [List.cons_append]
      rw [splitGo, hb]
      simp only [Bool.false_and]
      rw [if_neg (by simp)]
      rw [consHead_headD]
      rw [ih s0 sr q f (fun d hd => hmem d (List.mem_cons_of_mem a hd))
        (by simp at hlen ⊢; omega)]

/-- Helper: stripping leading whitespace from a whitespace-free list. -/
theorem trimLeadWS_no_ws (l : List Char) (h : ∀ c ∈ l, c.isWhitespace = false) :
    trimLeadWS l = l := by
  cases l with
  | nil => rfl
  | cons c rest =>
    have := h c (List.mem_cons_self c rest)
    simp [trimLeadWS, List.dropWhile, this]

/-- Helper: `trim` is the identity on whitespace-free lists. -/
theorem jsTrim_no_ws (p : List Char) (h : ∀ c ∈ p, c.isWhitespace = false) :
    jsTrim p = p := by
  unfold jsTrim
  rw [trimLeadWS_no_ws p.reverse (fun c hc => h c (List.mem_reverse.mp hc))]
  rw [List.reverse_reverse]
  exact trimLeadWS_no_ws p h

/-- Helper: `trim` drops one trailing space of a whitespace-free list. -/
theorem jsTrim_append_space (p : List Char) (h : ∀ c ∈ p, c.isWhitespace = false) :
    jsTrim (p ++ [' ']) = p := by
  unfold jsTrim
  rw [List.reverse_append]
  show trimLeadWS (trimLeadWS (' ' :: p.reverse)).reverse = p
  have h1 : trimLeadWS (' ' :: p.reverse) = trimLeadWS p.reverse := by
    simp [trimLeadWS, List.dropWhile]
  rw [h1, trimLeadWS_no_ws p.reverse (fun c hc => h c (List.mem_reverse.mp hc)),
    List.reverse_reverse]
  exact trimLeadWS_no_ws p h

/-- C9 amended: the `" - SiteName"` suffix is stripped exactly when the
prefix is longer than 10 characters, but the `"| SiteName"` suffix is
stripped unconditionally — the 10-character threshold does not apply to
the pipe case (the source checks `parts[0].length > 10` only in the
`' - '` branch). -/
theorem titleCleanup_amended :
    (∀ (p s : List Char), p ≠ [] → (∀ c ∈ p, c.isWhitespace = false) →
      (∀ c ∈ p, c ≠ '|') →
      titleCleanupL (p ++ (' ' :: '|' :: ' ' :: s)) = p) ∧
    (∀ (p s : List Char), p ≠ [] → (∀ c ∈ p, c.isWhitespace = false) →
      (∀ c ∈ p, c ≠ '|') → (∀ c ∈ s, c ≠ '|') →
      titleCleanupL (p ++ (' ' :: '-' :: ' ' :: s)) =
        if 10 < p.length then p else p ++ (' ' :: '-' :: ' ' :: s)) := by
  constructor
  · intro p s hp hw hnp
    have hwsp : ∀ c ∈ p, c ≠ ' ' := by
      intro c hc he
      have := hw c hc
      rw [he] at this
      simp at this
    have hne : p ++ (' ' :: '|' :: ' ' :: s) ≠ [] := by
      intro heq
      have := congrArg List.length heq
      simp at this
    have hpipe : hasSub ['|'] (p ++ (' ' :: '|' :: ' ' :: s)) = true := by
      have := hasSub_mid (p ++ [' ']) ['|'] (' ' :: s)
      simpa [List.append_assoc] using this
    have hmemp : ∀ c ∈ p ++ [' '], c ≠ '|' := by
      intro c hc
      rcases List.mem_append.mp hc with h | h
      · exact hnp c h
      · simp at h
        rw [h]
        decide
    have hsplit : (splitOnSep '|' [] (p ++ (' ' :: '|' :: ' ' :: s))).headD [] =
        p ++ [' '] := by
      unfold splitOnSep
      have := splitGo_head (p ++ [' ']) '|' [] (' ' :: s)
        ((p ++ (' ' :: '|' :: ' ' :: s)).length) hmemp
        (by simp [List.append_assoc])
      simpa [List.append_assoc] using this
    have hstep : pipeStep (p ++ (' ' :: '|' :: ' ' :: s)) = p := by
      unfold pipeStep
      rw [if_pos ⟨hne, hpipe⟩, hsplit]
      exact jsTrim_append_space p hw
    have hdash : hasSub [' ', '-', ' '] p = false := hasSub_none ' ' ['-', ' '] p hwsp
    unfold titleCleanupL
    rw [hstep]
    unfold dashStep
    rw [if_neg]
    intro hcon
    rw [hdash] at hcon
    exact Bool.false_ne_true hcon.2
  · intro p s hp hw hnp hns
    have hwsp : ∀ c ∈ p, c ≠ ' ' := by
      intro c hc he
      have := hw c hc
      rw [he] at this
      simp at this
    have hne : p ++ (' ' :: '-' :: ' ' :: s) ≠ [] := by
      intro heq
      have := congrArg List.length heq
      simp at this
    have hnopipe : hasSub ['|'] (p ++ (' ' :: '-' :: ' ' :: s)) = false := by
      refine hasSub_none '|' [] _ ?_
      intro c hc
      rcases List.mem_append.mp hc with h | h
      · exact hnp c h
      · rcases h with _ | ⟨_, _ | ⟨_, _ | ⟨_, h⟩⟩⟩
        · decide
        · decide
        · decide
        · exact hns c h
    have hdash : hasSub [' ', '-', ' '] (p ++ (' ' :: '-' :: ' ' :: s)) = true := by
      have := hasSub_mid p [' ', '-', ' '] s
      simpa [List.append_assoc] using this
    have hhead : (splitOnSep ' ' ['-', ' '] (p ++ (' ' :: '-' :: ' ' :: s))).headD [] =
        p := by
      unfold splitOnSep
      have := splitGo_head p ' ' ['-', ' '] s
        ((p ++ (' ' :: '-' :: ' ' :: s)).length) hwsp (by simp)
      simpa using this
    have hstep : pipeStep (p ++ (' ' :: '-' :: ' ' :: s)) =
        p ++ (' ' :: '-' :: ' ' :: s) := by
      unfold pipeStep
      rw [if_neg (fun hcon => Bool.false_ne_true (hnopipe ▸ hcon.2))]
    unfold titleCleanupL
    rw [hstep]
    unfold dashStep
    rw [if_pos ⟨hne, hdash⟩, hhead]
    by_cases hlen : 10 < p.length
    · rw [if_pos hlen, if_pos hlen]
      exact jsTrim_no_ws p hw
    · rw [if_neg hlen, if_neg hlen]

/-- Witness for C9 amended: a 5-character prefix is pipe-stripped anyway,
and a 10-character prefix is not dash-stripped. -/
theorem titleCleanup_amended_witness :
    titleCleanupL ("Short".data ++ (' ' :: '|' :: ' ' :: "Site".data)) = "Short".data ∧
    titleCleanupL ("ShortTitle".data ++ (' ' :: '-' :: ' ' :: "Site".data)) =
      (if 10 < "ShortTitle".data.length then "ShortTitle".data
       else "ShortTitle".data ++ (' ' :: '-' :: ' ' :: "Site".data)) :=
  ⟨titleCleanup_amended.1 "Short".data "Site".data (by decide) (by decide) (by decide),
   titleCleanup_amended.2 "ShortTitle".data "Site".data (by decide) (by decide)
     (by decide) (by decide)⟩

/-- C9 counterexample: the title `"Short | Site"` has a 5-character
prefix (≤ 10), yet `extractMetadata`'s cleanup strips the suffix anyway
(the threshold is only checked for `" - "`), contradicting the claim
that such titles are left unchanged. -/
theorem titleCleanup_pipe_short :
    titleCleanup "Short | Site" = "Short" ∧
    ("Short" : String).length ≤ 10 ∧
    ("Short" : String) ≠ "Short | Site" := by
  exact ⟨by decide, by decide, by decide⟩

/-- Helper: `saveStory` does not touch the batches table. -/
theorem saveStoryS_batches (st : Store) (t : StoryRec) :
    (saveStoryS st t).batches = st.batches := by
  unfold saveStoryS
  split <;> rfl

/-- Helper: a sequence of `saveStory` calls does not touch batches. -/
theorem foldSave_batches : ∀ (l : List StoryRec) (st : Store),
    (l.foldl saveStoryS st).batches = st.batches := by
  intro l
  induction l with
  | nil => intro st; rfl
  | cons t l ih =>
    intro st
    rw [List.foldl_cons, ih, saveStoryS_batches]

/-- Helper: `getBatch` only reads the batches table. -/
theorem getBatchS_congr (st st' : Store) (bid : String)
    (h : st'.batches = st.batches) : getBatchS st' bid = getBatchS st bid := by
  unfold getBatchS
  rw [h]

/-- Helper: `getStory` only reads the stories table. -/
theorem getStoryS_congr (st st' : Store) (sid : String)
    (h : st'.stories = st.stories) : getStoryS st' sid = getStoryS st sid := by
  unfold getStoryS
  rw [h]

/-- Helper: a found story row carries the requested id. -/
theorem getStoryS_id (st : Store) (sid : String) (t : StoryRec)
    (h : getStoryS st sid = some t) : t.storyId = sid := by
  have := List.find?_some h
  simpa using this

/-- Helper: after an in-place update, looking up the updated id finds
the new row. -/
theorem find?_upsert (t : StoryRec) :
    ∀ l : List StoryRec, l.any (fun u => u.storyId = t.storyId) = true →
      (l.map (fun u => if u.storyId = t.storyId then t else u)).find?
        (fun s => s.storyId = t.storyId) = some t := by
  intro l
  induction l with
  | nil => intro h; simp at h
  | cons u l ih =>
    intro h
    by_cases hu : u.storyId = t.storyId
    · simp only [List.map_cons, if_pos hu]
      rw [List.find?_cons_of_pos _ (by simp)]
    · simp only [List.map_cons, if_neg hu]
      rw [List.find?_cons_of_neg _ (by simpa using hu)]
      refine ih ?_
      simp only [List.any_cons, Bool.or_eq_true] at h
      rcases h with h1 | h1
      · exact absurd (by simpa using h1) hu
      · exact h1

/-- Helper: an in-place update of one id leaves other lookups alone. -/
theorem find?_map_other (t : StoryRec) (sid : String) (hne : sid ≠ t.storyId) :
    ∀ l : List StoryRec,
      (l.map (fun u => if u.storyId = t.storyId then t else u)).find?
        (fun s => s.storyId = sid) = l.find? (fun s => s.storyId = sid) := by
  intro l
  induction l with
  | nil => rfl
  | cons u l ih =>
    by_cases hu : u.storyId = t.storyId
    · simp only [List.map_cons, if_pos hu]
      rw [List.find?_cons_of_neg _ (by simp; exact fun he => hne he.symm),
        List.find?_cons_of_neg _ (by simp [hu]; exact fun he => hne he.symm)]
      exact ih
    · simp only [List.map_cons, if_neg hu]
      by_cases hus : u.storyId = sid
      · rw [List.find?_cons_of_pos _ (by simpa using hus),
          List.find?_cons_of_pos _ (by simpa using hus)]
      · rw [List.find?_cons_of_neg _ (by simpa using hus),
          List.find?_cons_of_neg _ (by simpa using hus)]
        exact ih

/-- Helper: `saveStory` makes its row visible under its id. -/
theorem getStoryS_save_self (st : Store) (t : StoryRec) :
    getStoryS (saveStoryS st t) t.storyId = some t := by
  unfold getStoryS saveStoryS
  by_cases hany : st.stories.any (fun u => u.storyId = t.storyId) = true
  · rw [if_pos hany]
    exact find?_upsert t st.stories hany
  · rw [if_neg hany]
    simp only
    rw [List.find?_append]
    have hnone : st.stories.find? (fun s => s.storyId = t.storyId) = none := by
      rw [List.find?_eq_none]
      intro x hx hpx
      exact hany (List.any_eq_true.mpr ⟨x, hx, hpx⟩)
    rw [hnone]
    simp

/-- Helper: `saveStory` leaves other ids untouched. -/
theorem getStoryS_save_other (st : Store) (t : StoryRec) (sid : String)
    (hne : sid ≠ t.storyId) :
    getStoryS (saveStoryS st t) sid = getStoryS st sid := by
  unfold getStoryS saveStoryS
  by_cases hany : st.stories.any (fun u => u.storyId = t.storyId) = true
  · rw [if_pos hany]
    exact find?_map_other t sid hne st.stories
  · rw [if_neg hany]
    simp only
    rw [List.find?_append]
    have h2 : [t].find? (fun s => s.storyId = sid) = none := by
      rw [List.find?_eq_none]
      intro x hx hpx
      simp at hx
      subst hx
      have hx2 : x.storyId = sid := by simpa using hpx
      exact hne hx2.symm
    rw [h2, Option.or_none]

/-- Helper: `saveStory` never deletes a present id. -/
theorem getStoryS_save_mono (st : Store) (t : StoryRec) (sid : String)
    (h : (getStoryS st sid).isSome = true) :
    (getStoryS (saveStoryS st t) sid).isSome = true := by
  by_cases he : sid = t.storyId
  · subst he
    rw [getStoryS_save_self]
    rfl
  · rw [getStoryS_save_other st t sid he]
    exact h

/-- Helper: saving rows with other ids leaves a lookup unchanged. -/
theorem foldSave_other : ∀ (l : List StoryRec) (st : Store) (sid : String),
    (∀ u ∈ l, u.storyId ≠ sid) →
    getStoryS (l.foldl saveStoryS st) sid = getStoryS st sid := by
  intro l
  induction l with
  | nil => intro st sid _; rfl
  | cons t l ih =>
    intro st sid hmem
    rw [List.foldl_cons]
    rw [ih (saveStoryS st t) sid (fun u hu => hmem u (List.mem_cons_of_mem t hu))]
    exact getStoryS_save_other st t sid
      (fun he => hmem t (List.mem_cons_self t l) he.symm)

/-- Helper: saving rows never deletes a present id. -/
theorem foldSave_mono : ∀ (l : List StoryRec) (st : Store) (sid : String),
    (getStoryS st sid).isSome = true →
    (getStoryS (l.foldl saveStoryS st) sid).isSome = true := by
  intro l
  induction l with
  | nil => intro st sid h; exact h
  | cons t l ih =>
    intro st sid h
    rw [List.foldl_cons]
    exact ih (saveStoryS st t) sid (getStoryS_save_mono st t sid h)

/-- Helper: applying all runs' saves does not touch batches. -/
theorem foldRuns_batches :
    ∀ (runs : List (StoryRec × (PResult × List StoryRec))) (st : Store),
      ((runs.foldl (fun acc run => run.2.2.foldl saveStoryS acc) st).batches) =
        st.batches := by
  intro runs
  induction runs with
  | nil => intro st; rfl
  | cons run runs ih =>
    intro st
    rw [List.foldl_cons, ih, foldSave_batches]

/-- Helper: runs saving only other ids leave a lookup unchanged. -/
theorem foldRuns_other :
    ∀ (runs : List (StoryRec × (PResult × List StoryRec))) (st : Store) (sid : String),
      (∀ run ∈ runs, ∀ u ∈ run.2.2, u.storyId ≠ sid) →
      getStoryS (runs.foldl (fun acc run => run.2.2.foldl saveStoryS acc) st) sid =
        getStoryS st sid := by
  intro runs
  induction runs with
  | nil => intro st sid _; rfl
  | cons run runs ih =>
    intro st sid hmem
    rw [List.foldl_cons]
    rw [ih _ sid (fun r hr u hu => hmem r (List.mem_cons_of_mem run hr) u hu)]
    exact foldSave_other run.2.2 st sid
      (fun u hu => hmem run (List.mem_cons_self run runs) u hu)

/-- Helper: runs' saves never delete a present id. -/
theorem foldRuns_mono :
    ∀ (runs : List (StoryRec × (PResult × List StoryRec))) (st : Store) (sid : String),
      (getStoryS st sid).isSome = true →
      (getStoryS (runs.foldl (fun acc run => run.2.2.foldl saveStoryS acc) st)
        sid).isSome = true := by
  intro runs
  induction runs with
  | nil => intro st sid h; exact h
  | cons run runs ih =>
    intro st sid h
    rw [List.foldl_cons]
    exact ih _ sid (foldSave_mono run.2.2 st sid h)

/-- Helper: after the folds, a story saved by some run is present. -/
theorem foldRuns_present :
    ∀ (runs : List (StoryRec × (PResult × List StoryRec))) (st : Store)
      (run0 : StoryRec × (PResult × List StoryRec)) (t : StoryRec),
      run0 ∈ runs → run0.2.2 = [t] →
      (getStoryS (runs.foldl (fun acc run => run.2.2.foldl saveStoryS acc) st)
        t.storyId).isSome = true := by
  intro runs
  induction runs with
  | nil => intro st run0 t h; simp at h
  | cons run runs ih =>
    intro st run0 t hmem hsv
    rw [List.foldl_cons]
    rcases List.mem_cons.mp hmem with h | h
    · subst h
      refine foldRuns_mono runs _ t.storyId ?_
      rw [hsv]
      simp only [List.foldl_cons, List.foldl_nil]
      rw [getStoryS_save_self]
      rfl
    · exact ih _ run0 t h hsv

/-- Helper: with `existingStoryId` set, every persisted story carries
exactly that id (in-place update, no duplicate row). -/
theorem processSingleUrl_saved_id :
    ∀ (env : PipeEnv) (url : String) (i : String) (t : StoryRec),
      t ∈ (processSingleUrl env url (some i)).2 → t.storyId = i := by
  intro env url i t ht
  rcases env with ⟨fr, pr, rr, shr, st1, st2, nid, now⟩
  cases fr <;> cases pr <;> cases rr <;> cases shr <;> cases st1 <;> cases st2 <;>
    simp_all [processSingleUrl, handleCatch]

/-- Helper: a run that returns a response persisted exactly one story. -/
theorem processSingleUrl_resp_single :
    ∀ (env : PipeEnv) (url : String) (i : Option String) (r : PResp),
      (processSingleUrl env url i).1 = PResult.resp r →
      ∃ t, (processSingleUrl env url i).2 = [t] := by
  intro env url i r hr
  rcases env with ⟨fr, pr, rr, shr, st1, st2, nid, now⟩
  cases fr <;> cases pr <;> cases rr <;> cases shr <;> cases st1 <;> cases st2 <;>
    simp_all [processSingleUrl, handleCatch]

/-- Helper: a batch-id-preserving map commutes with the lookup. -/
theorem find?_update_batches (g : BatchRec → BatchRec) (bid : String)
    (hg : ∀ b, (g b).batchId = b.batchId) :
    ∀ l : List BatchRec,
      (l.map g).find? (fun b => b.batchId = bid) =
        (l.find? (fun b => b.batchId = bid)).map g := by
  intro l
  induction l with
  | nil => rfl
  | cons b l ih =>
    by_cases hb : b.batchId = bid
    · rw [List.map_cons, List.find?_cons_of_pos _ (by simp [hg, hb]),
        List.find?_cons_of_pos _ (by simpa using hb)]
      rfl
    · rw [List.map_cons, List.find?_cons_of_neg _ (by simp [hg, hb]),
        List.find?_cons_of_neg _ (by simpa using hb)]
      exact ih

/-- Helper: `updateBatch` rewrites exactly the present fields of the
addressed batch. -/
theorem getBatchS_update (st : Store) (bid : String) (u : BatchUpd) :
    getBatchS (updateBatchS st bid u) bid =
      (getBatchS st bid).map (fun b =>
        { b with
          processed := u.processed.getD b.processed
          completed := u.completed.getD b.completed
          failed := u.failed.getD b.failed
          stories := u.stories.getD b.stories }) := by
  unfold getBatchS updateBatchS
  rw [find?_update_batches _ bid (by intro b; split <;> rfl)]
  cases hf : st.batches.find? (fun b => b.batchId = bid) with
  | none => rfl
  | some b =>
    have hid : b.batchId = bid := by
      have := List.find?_some hf
      simpa using this
    simp only [Option.map_some']
    rw [if_pos hid]

/-- Helper: `updateBatch` does not touch the stories table. -/
theorem getStoryS_updateBatchS (st : Store) (bid : String) (u : BatchUpd)
    (sid : String) : getStoryS (updateBatchS st bid u) sid = getStoryS st sid :=
  getStoryS_congr st (updateBatchS st bid u) sid rfl

/-- C3 amended: when a batch is found and no retry run raises,
`retryFailedStories` (1) leaves the batch's `storyIds` sequence
untouched and adds the number of successful retries to `completed`
while subtracting it from `failed`; (2) leaves every story outside the
failed set untouched; (3) keeps every failed story present under its
original id (updated in place, never duplicated).  The retried stories'
`status`/`content`/`error` — and also `extractedAt` (and `originalUrl`
on redirect) — may change, which is what the counterexample shows. -/
theorem retryFailedStories_frame :
    ∀ (envFor : String → PipeEnv) (st : Store) (bid : String) (batch : BatchRec)
      (st' : Store) (retried succN stillFailed : Nat),
      getBatchS st bid = some batch →
      retryFailedStories envFor st bid =
        Except.ok (st', retried, succN, stillFailed) →
      getBatchS st' bid =
        some { batch with completed := batch.completed + succN,
                          failed := batch.failed - succN } ∧
      (∀ sid : String, sid ∉ failedIdsOf st batch →
        getStoryS st' sid = getStoryS st sid) ∧
      (∀ sid ∈ failedIdsOf st batch,
        ∃ t, getStoryS st' sid = some t ∧ t.storyId = sid) := by
  intro envFor st bid batch st' retried succN stillFailed hb hok
  simp only [retryFailedStories, hb] at hok
  by_cases hfe : (failedStoriesOf st batch).length = 0
  · rw [if_pos hfe] at hok
    have hempty : failedStoriesOf st batch = [] := List.length_eq_zero.mp hfe
    simp only [Except.ok.injEq, Prod.mk.injEq] at hok
    obtain ⟨h1, h2, h3, h4⟩ := hok
    subst h1; subst h3
    refine ⟨by exact hb, ?_, ?_⟩
    · intro sid _; rfl
    · intro sid hsid
      simp [failedIdsOf, hempty] at hsid
  · rw [if_neg hfe] at hok
    cases hfind : ((failedStoriesOf st batch).map (fun s =>
        (s, processSingleUrl (envFor s.storyId) s.originalUrl (some s.storyId)))).find?
        (fun run => match run.2.1 with | PResult.raised _ => true | _ => false) with
    | some run =>
      simp only [hfind] at hok
      have hp := List.find?_some hfind
      cases hr1 : run.2.1 with
      | resp r => rw [hr1] at hp; simp at hp
      | raised e => rw [hr1] at hok; simp at hok
    | none =>
      simp only [hfind] at hok
      simp only [Except.ok.injEq, Prod.mk.injEq] at hok
      obtain ⟨h1, h2, h3, h4⟩ := hok
      subst h1; subst h3
      refine ⟨?_, ?_, ?_⟩
      · rw [getBatchS_update]
        rw [getBatchS_congr st _ bid (foldRuns_batches _ st)]
        rw [hb]
        rfl
      · intro sid hsid
        rw [getStoryS_updateBatchS]
        refine foldRuns_other _ st sid ?_
        intro run hrun u hu
        rcases List.mem_map.mp hrun with ⟨s, hsmem, hseq⟩
        subst hseq
        have hid : u.storyId = s.storyId :=
          processSingleUrl_saved_id (envFor s.storyId) s.originalUrl s.storyId u hu
        rw [hid]
        intro he
        exact hsid (he ▸ List.mem_map_of_mem (fun s => s.storyId) hsmem)
      · intro sid hsid
        rcases List.mem_map.mp hsid with ⟨s, hsmem, hseq⟩
        have hrun0 : (s, processSingleUrl (envFor s.storyId) s.originalUrl
            (some s.storyId)) ∈ (failedStoriesOf st batch).map (fun s =>
              (s, processSingleUrl (envFor s.storyId) s.originalUrl (some s.storyId))) :=
          List.mem_map_of_mem _ hsmem
        have hnr := List.find?_eq_none.mp hfind _ hrun0
        have hresp : ∃ r, (processSingleUrl (envFor s.storyId) s.originalUrl
            (some s.storyId)).1 = PResult.resp r := by
          cases hr1 : (processSingleUrl (envFor s.storyId) s.originalUrl
              (some s.storyId)).1 with
          | resp r => exact ⟨r, rfl⟩
          | raised e => rw [hr1] at hnr; simp at hnr
        rcases hresp with ⟨r, hr⟩
        rcases processSingleUrl_resp_single _ _ _ r hr with ⟨t, htv⟩
        have htid : t.storyId = s.storyId :=
          processSingleUrl_saved_id (envFor s.storyId) s.originalUrl s.storyId t
            (by rw [htv]; exact List.mem_singleton_self t)
        have hpres := foldRuns_present _ st
          (s, processSingleUrl (envFor s.storyId) s.originalUrl (some s.storyId)) t
          hrun0 htv
        rw [htid, hseq] at hpres
        rw [getStoryS_updateBatchS]
        cases hg : getStoryS ((((failedStoriesOf st batch).map (fun s =>
            (s, processSingleUrl (envFor s.storyId) s.originalUrl
              (some s.storyId)))).foldl
            (fun acc run => run.2.2.foldl saveStoryS acc) st)) sid with
        | none => rw [hg] at hpres; simp at hpres
        | some x =>
          exact ⟨x, rfl, getStoryS_id _ sid x hg⟩

/-- Witness for C3 amended on the concrete one-failed-story batch. -/
theorem retryFailedStories_frame_witness :
    (getBatchS store0Retried "batch_b1" =
      some { b1Batch with completed := b1Batch.completed + 1,
                          failed := b1Batch.failed - 1 }) ∧
    (∀ sid : String, sid ∉ failedIdsOf store0 b1Batch →
      getStoryS store0Retried sid = getStoryS store0 sid) ∧
    (∀ sid ∈ failedIdsOf store0 b1Batch,
      ∃ t, getStoryS store0Retried sid = some t ∧ t.storyId = sid) :=
  retryFailedStories_frame (fun _ => envAllOk) store0 "batch_b1" b1Batch
    store0Retried 1 1 0 rfl (by rfl)

/-- C3 counterexample: retrying the failed story of `store0` succeeds
and updates it in place, but the retried story's `extractedAt` changes
from `T1` to `T2` — a field outside the claim's
"only status/content/error may change" frame. -/
theorem retry_changes_extractedAt :
    (retryFailedStories (fun _ => envAllOk) store0 "batch_b1").toOption.map
        (fun x => x.2) = some (1, 1, 0) ∧
    (retryFailedStories (fun _ => envAllOk) store0 "batch_b1").toOption.map
        (fun x => (getStoryS x.1 "story_s1").map (fun s => s.extractedAt)) =
      some (some "T2") ∧
    (getStoryS store0 "story_s1").map (fun s => s.extractedAt) = some "T1" ∧
    ("T2" : String) ≠ "T1" := by
  exact ⟨rfl, rfl, rfl, by decide⟩
